import Mathlib

/-!
# Verification of the mp-interests extraction-and-classification pipeline

Shallow embedding of the core of the repository:
* `parseCurrencyAmount` (src/lib/utils/currency.ts)
* the field extractor (`src/lib/sync/paymentExtractor.ts`)
* the payer classifier (`PayerClassifier` in the same module)
* the payer-row construction of `SyncService.processPayments`
  (src/lib/sync/syncService.ts)

JavaScript strings are modelled as `List Char` (all inputs of interest are
ASCII), JavaScript numbers as `ℚ`, and a thrown `TypeError` as the `error`
case of `Except String`.
-/

namespace MPInterests

/-- Decidable equality for `Except`, used to evaluate the embedding on
concrete inputs. -/
def exceptDecEq {ε α : Type} [DecidableEq ε] [DecidableEq α] :
    (a b : Except ε α) → Decidable (a = b)
  | .ok a, .ok b =>
    if h : a = b then isTrue (by rw [h]) else isFalse (fun hh => h (Except.ok.inj hh))
  | .ok _, .error _ => isFalse (fun hh => Except.noConfusion hh)
  | .error _, .ok _ => isFalse (fun hh => Except.noConfusion hh)
  | .error e, .error f =>
    if h : e = f then isTrue (by rw [h]) else isFalse (fun hh => h (Except.error.inj hh))

instance {ε α : Type} [DecidableEq ε] [DecidableEq α] : DecidableEq (Except ε α) :=
  exceptDecEq

/-! ## JavaScript string primitives -/

/-- JavaScript `\s` (ASCII fragment): space, tab, newline, carriage return,
vertical tab, form feed. -/
def isJsSpace (c : Char) : Bool :=
  c = ' ' || c = '\t' || c = '\n' || c = '\r' || c = '\x0b' || c = '\x0c'

/-- JavaScript `\w`: ASCII letters, digits and underscore. -/
def isWordChar (c : Char) : Bool :=
  c.isAlphanum || c = '_'

/-- ASCII decimal digit. -/
def isDigitCh (c : Char) : Bool := c.isDigit

/-- `String.prototype.toLowerCase` on ASCII text. -/
def jsLower (s : List Char) : List Char := s.map Char.toLower

/-- `String.prototype.trim` (ASCII whitespace fragment). -/
def jsTrim (s : List Char) : List Char :=
  (((s.dropWhile (isJsSpace ·)).reverse).dropWhile (isJsSpace ·)).reverse

/-- Does `hay` contain `needle` as a contiguous substring
(`String.prototype.includes`)? -/
def jsIncludes : (hay : List Char) → (needle : List Char) → Bool
  | hay, needle =>
    if needle.isPrefixOf hay then true
    else
      match hay with
      | [] => false
      | _ :: rest => jsIncludes rest needle

/-- Split a character list at every occurrence of a separator character
(`String.prototype.split` with a one-character separator). -/
def splitOnCh (sep : Char) : List Char → List (List Char)
  | [] => [[]]
  | c :: rest =>
    let r := splitOnCh sep rest
    if c = sep then [] :: r
    else
      match r with
      | [] => [[c]]
      | g :: gs => (c :: g) :: gs

/-- Split into maximal runs of non-whitespace characters; equals
`s.split(/\s+/).filter(w => w.length > 0)`. -/
def splitWs : List Char → List (List Char)
  | [] => []
  | c :: rest =>
    if isJsSpace c then splitWs rest
    else
      match splitWs rest with
      | [] => [[c]]
      | g :: gs =>
        match rest with
        | [] => [[c]]
        | d :: _ => if isJsSpace d then [c] :: g :: gs else (c :: g) :: gs

/-- Worker for `collapseWs`: the flag records whether the previous
character was whitespace (in which case further whitespace is dropped). -/
def collapseWsAux : Bool → List Char → List Char
  | _, [] => []
  | inSpace, c :: rest =>
    if isJsSpace c then
      if inSpace then collapseWsAux true rest else ' ' :: collapseWsAux true rest
    else c :: collapseWsAux false rest

/-- Replace every maximal run of whitespace by a single space
(`.replace(/\s+/g, ' ')`). -/
def collapseWs (s : List Char) : List Char := collapseWsAux false s

/-! ## JavaScript `parseFloat`

`parseFloat` skips leading whitespace, accepts an optional sign, then reads
the longest prefix of the form `digits [. digits] [e|E [sign] digits]` with
at least one digit in the mantissa; it returns `NaN` (here: `none`) when no
such prefix exists.  (The `Infinity` literal never occurs in this
repository's data and is not modelled.) -/

/-- Digits read left to right as a natural number. -/
def digitsToNat (ds : List Char) : Nat :=
  ds.foldl (fun acc c => acc * 10 + (c.toNat - '0'.toNat)) 0

/-- Value of a fractional digit string, e.g. `"25"` ↦ `1/4`. -/
def fracValue (ds : List Char) : ℚ :=
  (digitsToNat ds : ℚ) / ((10 : ℚ) ^ ds.length)

/-- Integer power of ten with sign, for the exponent part. -/
def pow10 (e : Int) : ℚ :=
  if e ≥ 0 then ((10 : ℚ) ^ e.toNat) else 1 / ((10 : ℚ) ^ (-e).toNat)

/-- Parse the exponent suffix `e|E [sign] digits`; returns the exponent and
is `0` when the suffix is absent or incomplete (in which case `parseFloat`
stops before the `e`). -/
def parseExponent (s : List Char) : Int :=
  match s with
  | c :: rest =>
    if c = 'e' || c = 'E' then
      match rest with
      | '+' :: ds => if (ds.takeWhile (isDigitCh ·)).isEmpty then 0 else digitsToNat (ds.takeWhile (isDigitCh ·))
      | '-' :: ds => if (ds.takeWhile (isDigitCh ·)).isEmpty then 0 else -(digitsToNat (ds.takeWhile (isDigitCh ·)) : Int)
      | ds => if (ds.takeWhile (isDigitCh ·)).isEmpty then 0 else digitsToNat (ds.takeWhile (isDigitCh ·))
    else 0
  | [] => 0

/-- The syntactic shape of a parsed float literal: sign, integer digits,
fraction digits, decimal exponent. -/
structure FloatRepr where
  neg : Bool
  intDigits : List Char
  fracDigits : List Char
  exp : Int
deriving DecidableEq, Repr

/-- The rational value of a parsed float literal. -/
def FloatRepr.val (r : FloatRepr) : ℚ :=
  let mag := ((digitsToNat r.intDigits : ℚ) + fracValue r.fracDigits) * pow10 r.exp
  if r.neg then -mag else mag

/-- Mantissa-and-exponent part of `parseFloat`, after sign handling. -/
def parseFloatMag (neg : Bool) (s : List Char) : Option FloatRepr :=
  let intPart := s.takeWhile (isDigitCh ·)
  let rest := s.dropWhile (isDigitCh ·)
  let (fracPart, rest') :=
    match rest with
    | '.' :: r => (r.takeWhile (isDigitCh ·), r.dropWhile (isDigitCh ·))
    | _ => ([], rest)
  if intPart.isEmpty && fracPart.isEmpty then none
  else some ⟨neg, intPart, fracPart, parseExponent rest'⟩

/-- The shape recognized by JavaScript `parseFloat`; `none` models `NaN`. -/
def parseFloatRepr (s : List Char) : Option FloatRepr :=
  match s.dropWhile (isJsSpace ·) with
  | '-' :: rest => parseFloatMag true rest
  | '+' :: rest => parseFloatMag false rest
  | rest => parseFloatMag false rest

/-- JavaScript `parseFloat`; `none` models `NaN`. -/
def jsParseFloat (s : List Char) : Option ℚ :=
  (parseFloatRepr s).map FloatRepr.val

/-! ## JavaScript values -/

/-- A JavaScript value that can sit in an interest field's `value` slot
(`string | number | boolean`). -/
inductive JsVal where
  | str (s : String)
  | num (q : ℚ)
  | bool (b : Bool)
deriving DecidableEq, Repr

/-- JavaScript truthiness of a field value (`""`, `0` and `false` are
falsy). -/
def JsVal.truthy : JsVal → Bool
  | .str s => s ≠ ""
  | .num q => q ≠ 0
  | .bool b => b

/-- Truthiness of an optional value (`null`/`undefined` are falsy). -/
def jsTruthy : Option JsVal → Bool
  | none => false
  | some v => v.truthy

/-- Fuelled worker for `natDigits` (`n` itself is always enough fuel,
since `n / 10 < n`). -/
def natDigitsAux : Nat → Nat → List Char
  | 0, _ => []
  | _ + 1, 0 => []
  | fuel + 1, n + 1 =>
    natDigitsAux fuel ((n + 1) / 10) ++ [Char.ofNat ('0'.toNat + (n + 1) % 10)]

/-- Decimal digits of a natural number (empty for `0`). -/
def natDigits (n : Nat) : List Char := natDigitsAux n n

/-- Decimal rendering of a natural number. -/
def natToString (n : Nat) : String :=
  if n = 0 then "0" else String.mk (natDigits n)

/-- Rendering of a JavaScript number as by `String(...)`; exact for
integers, which is the only case exercised by this repository's data
(JavaScript's shortest-round-trip printing of non-integral doubles is not
modelled; a `num/den` rendering stands in for it, and no claim depends on
the rendering of a non-integral amount). -/
def jsNumToString (q : ℚ) : String :=
  if q.den = 1 then
    (if q.num < 0 then "-" ++ natToString q.num.natAbs else natToString q.num.natAbs)
  else natToString q.num.natAbs ++ "/" ++ natToString q.den

/-- `String(v)` on a field value. -/
def jsValToString : JsVal → String
  | .str s => s
  | .num q => jsNumToString q
  | .bool b => if b then "true" else "false"

/-- Is the value a boolean? -/
def JsVal.isBool : JsVal → Bool
  | .bool _ => true
  | _ => false

/-! ## Currency parser (`parseCurrencyAmount`, src/lib/utils/currency.ts) -/

/-- Match the regex `estimated\s+value\s*[:\s]*£?([\d,]+(?:\.\d+)?)/i`
at the start of `s`, returning the first capture group.  The two greedy
runs `\s*[:\s]*` jointly consume the maximal run of `[\s:]` characters
(backtracking cannot help, since the continuation starts with `£`, a digit
or a comma). -/
def estimatedMatchAt (s : List Char) : Option (List Char) :=
  let lit : List Char → List Char → Option (List Char) := fun pat t =>
    if (jsLower (t.take pat.length)) = pat then some (t.drop pat.length) else none
  match lit "estimated".data s with
  | none => none
  | some r1 =>
    let sp := r1.takeWhile (isJsSpace ·)
    if sp.isEmpty then none
    else
      match lit "value".data (r1.dropWhile (isJsSpace ·)) with
      | none => none
      | some r2 =>
        let r3 := r2.dropWhile (fun c => isJsSpace c || c = ':')
        let r4 := if r3.head? = some '£' then r3.drop 1 else r3
        let digs := r4.takeWhile (fun c => isDigitCh c || c = ',')
        if digs.isEmpty then none
        else
          let r5 := r4.dropWhile (fun c => isDigitCh c || c = ',')
          match r5 with
          | '.' :: r6 =>
            let frac := r6.takeWhile (isDigitCh ·)
            if frac.isEmpty then some digs else some (digs ++ '.' :: frac)
          | _ => some digs

/-- Leftmost match of the `estimated value` capture anywhere in the
string (`String.prototype.match` semantics for an unanchored regex). -/
def estimatedCapture : List Char → Option (List Char)
  | [] => none
  | c :: rest =>
    match estimatedMatchAt (c :: rest) with
    | some cap => some cap
    | none => estimatedCapture rest

/-- `processedValue`: the string actually cleaned and parsed — the capture
of the `Estimated value …` pattern when it matches, the whole string
otherwise. -/
def processedOf (s : List Char) : List Char :=
  match estimatedCapture s with
  | some cap => cap
  | none => s

/-- `.replace(/[£,\s]/g, '')`. -/
def cleanCurrency (s : List Char) : List Char :=
  s.filter (fun c => !(c = '£' || c = ',' || isJsSpace c))

/-- The cleaned string `parseCurrencyAmount` works on. -/
def cleanedOf (s : List Char) : List Char :=
  cleanCurrency (processedOf s)

/-- Core of `parseCurrencyAmount` on a string argument. -/
def parseCurrencyStr (s : String) : Option ℚ :=
  let cleaned := cleanedOf s.data
  if cleaned.contains '-' then
    let parts := splitOnCh '-' cleaned
    let minQ := jsParseFloat (parts.getD 0 [])
    let maxQ := jsParseFloat (parts.getD 1 [])
    match minQ, maxQ with
    | some mn, some mx => some ((mn + mx) / 2)
    | _, _ => jsParseFloat cleaned
  else jsParseFloat cleaned

/-- `parseCurrencyAmount(value)`.  `none` input models `null`/`undefined`;
a `number` passes through; a `boolean` (possible at the donor-array call
site through an unsound cast) makes the JavaScript function call
`value.match` on a non-string and throw a `TypeError`, modelled as
`Except.error`. -/
def parseCurrencyAmount : Option JsVal → Except String (Option ℚ)
  | none => .ok none
  | some (.num q) => .ok (some q)
  | some (.bool _) => .error "TypeError: value.match is not a function"
  | some (.str s) => .ok (parseCurrencyStr s)

/-! ## A small regex engine

The classifier's `DEFAULT_RULES` use JavaScript regexes built from literals,
character classes, alternation, optional groups, `+`/`*` over a character
class, and the zero-width assertions `^`, `$` and `\b`.  All rule regexes
carry the `i` flag, so literals are compared case-insensitively.  The engine
below computes, for a pattern and a starting position (represented by the
previously consumed character and the remaining input), the list of
positions reachable after matching; `Re.test` then searches every start
position, which is exactly the boolean `RegExp.prototype.test`. -/

inductive Re where
  /-- the empty pattern -/
  | eps : Re
  /-- a single character from a class -/
  | cls : (Char → Bool) → Re
  /-- a case-insensitive literal (stored lower-cased) -/
  | lit : List Char → Re
  /-- concatenation -/
  | seq : Re → Re → Re
  /-- alternation -/
  | alt : Re → Re → Re
  /-- `(...)?` -/
  | opt : Re → Re
  /-- `p*` over a character class -/
  | many : (Char → Bool) → Re
  /-- `p+` over a character class -/
  | many1 : (Char → Bool) → Re
  /-- `^` -/
  | bos : Re
  /-- `$` -/
  | eos : Re
  /-- `\b` -/
  | wb : Re

/-- Concatenation of a list of patterns. -/
def Re.cat (rs : List Re) : Re := rs.foldr Re.seq Re.eps

/-- Alternation of a non-empty list of patterns. -/
def Re.alts : List Re → Re
  | [] => Re.cls (fun _ => false)
  | [r] => r
  | r :: rs => Re.alt r (Re.alts rs)

/-- Word-bounded case-insensitive literal `\blit\b`. -/
def Re.word (s : String) : Re := Re.cat [Re.wb, Re.lit s.data, Re.wb]

/-- A matching position: the character just before it (for `\b`) and the
remaining input. -/
abbrev RePos := Option Char × List Char

/-- Is the character on the given side of a position a word character?
(`none` = string boundary). -/
def isWordB : Option Char → Bool
  | none => false
  | some c => isWordChar c

/-- All positions reachable by consuming a prefix of `p`-characters
(for `p*`). -/
def manyStates (p : Char → Bool) : Option Char → List Char → List RePos
  | prev, [] => [(prev, [])]
  | prev, c :: rest =>
    (prev, c :: rest) :: (if p c then manyStates p (some c) rest else [])

/-- Positions reachable after matching a case-insensitive literal. -/
def litStates (pat : List Char) (prev : Option Char) (s : List Char) : List RePos :=
  match pat, s with
  | [], _ => [(prev, s)]
  | _ :: _, [] => []
  | p :: ps, c :: rest => if c.toLower = p then litStates ps (some c) rest else []

/-- All positions reachable after matching the pattern from a position. -/
def Re.states : Re → Option Char → List Char → List RePos
  | .eps, prev, s => [(prev, s)]
  | .cls p, _, s =>
    match s with
    | [] => []
    | c :: rest => if p c then [(some c, rest)] else []
  | .lit pat, prev, s => litStates pat prev s
  | .seq a b, prev, s =>
    (a.states prev s).flatMap (fun st => b.states st.1 st.2)
  | .alt a b, prev, s => a.states prev s ++ b.states prev s
  | .opt a, prev, s => (prev, s) :: a.states prev s
  | .many p, prev, s => manyStates p prev s
  | .many1 p, _, s =>
    match s with
    | [] => []
    | c :: rest => if p c then manyStates p (some c) rest else []
  | .bos, prev, s => if prev.isNone then [(prev, s)] else []
  | .eos, prev, s => if s.isEmpty then [(prev, s)] else []
  | .wb, prev, s => if isWordB prev ≠ isWordB s.head? then [(prev, s)] else []

/-- Does the pattern match starting at this exact position? -/
def Re.matchesAt (r : Re) (prev : Option Char) (s : List Char) : Bool :=
  !(r.states prev s).isEmpty

/-- Search for a match from the current or any later start position. -/
def Re.searchFrom (r : Re) (prev : Option Char) (s : List Char) : Bool :=
  r.matchesAt prev s ||
    match s with
    | [] => false
    | c :: rest => r.searchFrom (some c) rest

/-- `RegExp.prototype.test` (unanchored search). -/
def Re.test (r : Re) (s : String) : Bool :=
  r.searchFrom none s.data

/-! ## Payer classifier (`payerClassifier.ts`) -/

inductive PayerType where
  | Government
  | Company
  | Individual
  | Other
deriving DecidableEq, Repr

structure ClassificationResult where
  type : PayerType
  subtype : Option String
deriving DecidableEq, Repr

/-- A rule pattern is a regex or a literal substring. -/
inductive RulePattern where
  | regex (r : Re)
  | str (s : String)

structure ClassificationRule where
  pattern : RulePattern
  type : PayerType
  subtype : Option String
  priority : Int

/-- ASCII letter (`[a-z]` under the `i` flag). -/
def isAsciiLetter (c : Char) : Bool :=
  ('a' ≤ c && c ≤ 'z') || ('A' ≤ c && c ≤ 'Z')

/-- `[- ]`. -/
def isDashOrSpace (c : Char) : Bool := c = '-' || c = ' '

/-- Shorthand: regex rule with a subtype. -/
def rule (re : Re) (t : PayerType) (st : String) (p : Int) : ClassificationRule :=
  ⟨.regex re, t, some st, p⟩

/-- Shorthand: regex rule without a subtype. -/
def rule0 (re : Re) (t : PayerType) (p : Int) : ClassificationRule :=
  ⟨.regex re, t, none, p⟩

open Re in
/-- The `DEFAULT_RULES` table, in source order. -/
def DEFAULT_RULES : List ClassificationRule := [
  -- Governments
  rule (word "government of") .Government "Foreign Government" 10,
  rule (word "embassy of") .Government "Embassy" 10,
  rule (word "royal embassy") .Government "Embassy" 10,
  rule (cat [wb, many1 isWordChar, lit " embassy".data, wb]) .Government "Embassy" 9,
  rule (cat [wb, lit "consulate".data, cls isDashOrSpace, lit "general".data, wb])
    .Government "Consulate" 10,
  rule (word "consulate of") .Government "Consulate" 10,
  rule (word "high commission") .Government "Embassy" 10,
  rule (word "ministry of") .Government "Ministry" 10,
  rule (word "ministerio") .Government "Ministry" 10,
  rule (cat [wb, lit "foreign ".data, alts [lit "affairs".data, lit "ministry".data], wb])
    .Government "Foreign Government" 10,
  rule (word "mofa") .Government "Foreign Government" 10,
  rule (word "federal department") .Government "Foreign Government" 10,
  rule (word "federal government") .Government "Foreign Government" 10,
  rule (word "state department") .Government "Foreign Government" 10,
  rule (word "parliament of") .Government "Parliament" 10,
  rule (word "national assembly") .Government "Parliament" 10,
  rule (cat [wb, alts [lit "uk".data, lit "british".data, lit "hm".data], lit " government".data, wb])
    .Government "UK Government" 10,
  rule (cat [wb, lit "department ".data, alts [lit "of".data, lit "for".data], wb])
    .Government "UK Government" 9,
  rule (cat [wb, lit "house of ".data, alts [lit "commons".data, lit "lords".data], wb])
    .Government "UK Parliament" 10,
  rule (alt (word "eu")
      (cat [lit "european ".data, alts [lit "union".data, lit "commission".data, lit "parliament".data]]))
    .Government "EU" 9,
  rule (word "united nations") .Government "International" 10,
  rule (word "nato") .Government "International" 10,
  rule (word "world bank") .Government "International" 10,
  rule (alt (word "imf") (word "international monetary fund")) .Government "International" 10,
  rule (word "council") .Government "Local Government" 6,
  rule (word "authority") .Government "Public Authority" 5,
  -- Companies
  rule0 (cat [wb, alts [lit "ltd".data, lit "limited".data], opt (lit ".".data), many isJsSpace, eos])
    .Company 12,
  rule0 (cat [wb, alts [lit "ltd".data, lit "limited".data], wb, opt (lit ".".data)]) .Company 12,
  rule (cat [wb, lit "plc".data, wb, opt (lit ".".data)]) .Company "Public Company" 12,
  rule (word "friends of") .Company "Advocacy Group" 11,
  rule (cat [wb, lit "llp".data, wb, opt (lit ".".data), eos]) .Company "Partnership" 8,
  rule0 (cat [wb, lit "inc".data, opt (lit ".".data), wb, eos]) .Company 8,
  rule0 (cat [wb, lit "corp".data, opt (lit "oration".data), opt (lit ".".data), wb, eos]) .Company 8,
  rule (word "gmbh") .Company "German Company" 8,
  rule0 (cat [wb, alts [lit "sa".data, lit "ag".data], wb, eos]) .Company 7,
  rule (word "holdings") .Company "Holding Company" 6,
  rule0 (cat [wb, lit "group".data, wb, eos]) .Company 5,
  rule (word "partners") .Company "Partnership" 5,
  rule (word "foundation") .Company "Foundation" 5,
  rule (word "trust") .Company "Trust" 5,
  rule (word "charity") .Company "Charity" 5,
  -- Media companies
  rule (cat [wb,
      alts [lit "bbc".data, lit "itv".data, lit "sky".data,
        cat [lit "channel".data, many isJsSpace, lit "4".data]], wb])
    .Company "Media" 8,
  rule (cat [wb,
      alts [lit "times".data, lit "guardian".data, lit "telegraph".data, lit "mail".data,
        lit "sun".data, lit "mirror".data], wb])
    .Company "Media" 7,
  rule (cat [wb,
      alts [lit "news".data, lit "media".data, lit "broadcasting".data, lit "radio".data], wb])
    .Company "Media" 5,
  -- Universities and institutions
  rule (word "university") .Company "Education" 7,
  rule (word "college") .Company "Education" 6,
  rule (word "institute") .Company "Institution" 5,
  -- Trade unions
  rule (word "union") .Company "Trade Union" 6,
  rule (alts [word "gmb", word "unite", word "unison"]) .Company "Trade Union" 8,
  -- Individuals
  rule0 (cat [bos,
      alts [lit "mr".data, lit "mrs".data, lit "ms".data, lit "miss".data, lit "dr".data,
        lit "sir".data, lit "dame".data, lit "lord".data, lit "lady".data, lit "baron".data,
        lit "baroness".data, lit "viscount".data, lit "earl".data, lit "duke".data,
        lit "duchess".data], many1 isJsSpace])
    .Individual 6,
  rule0 (cat [bos, alts [lit "professor".data, cat [lit "prof".data, opt (lit ".".data)]],
      many1 isJsSpace])
    .Individual 6,
  rule0 (cat [bos, opt (cat [lit "the".data, many1 isJsSpace]),
      opt (cat [lit "rt".data, many1 isJsSpace]), lit "hon".data, opt (lit "ourable".data),
      opt (lit ".".data), many1 isJsSpace])
    .Individual 6]

/-- The `COMMON_FIRST_NAMES` set. -/
def COMMON_FIRST_NAMES : List String := [
  "james", "john", "robert", "michael", "william", "david", "richard", "joseph", "thomas", "charles",
  "christopher", "daniel", "matthew", "anthony", "mark", "donald", "steven", "paul", "andrew", "joshua",
  "kenneth", "kevin", "brian", "george", "edward", "ronald", "timothy", "jason", "jeffrey", "ryan",
  "jacob", "gary", "nicholas", "eric", "jonathan", "stephen", "larry", "justin", "scott", "brandon",
  "benjamin", "samuel", "raymond", "gregory", "frank", "alexander", "patrick", "jack", "dennis", "jerry",
  "mary", "patricia", "jennifer", "linda", "elizabeth", "barbara", "susan", "jessica", "sarah", "karen",
  "nancy", "lisa", "margaret", "betty", "sandra", "ashley", "dorothy", "kimberly", "emily", "donna",
  "michelle", "carol", "amanda", "melissa", "deborah", "stephanie", "rebecca", "sharon", "laura", "cynthia",
  "kathleen", "amy", "angela", "shirley", "anna", "brenda", "pamela", "emma", "nicole", "helen",
  "samantha", "katherine", "christine", "debra", "rachel", "carolyn", "janet", "catherine", "maria", "heather",
  "peter", "simon", "ian", "stuart", "alan", "martin", "graham", "colin", "philip", "keith",
  "barry", "trevor", "derek", "roger", "neil", "adrian", "gerald", "carl", "roy", "wayne",
  "adam", "harry", "joe", "luke", "oliver", "oscar", "charlie", "jake", "max", "alex",
  "kate", "jane", "anne", "claire", "clare", "julia", "victoria", "sophie", "charlotte", "lucy",
  "grace", "hannah", "olivia", "chloe", "megan", "natalie", "louise", "holly", "joanne", "marie",
  "mohammed", "muhammad", "ahmed", "ali", "omar", "hassan", "hussein", "abdul", "syed", "tariq",
  "raj", "ravi", "anil", "sunil", "vijay", "amit", "ashok", "rajesh", "sanjay", "vikram",
  "priya", "sunita", "anita", "neha", "pooja", "deepa", "kavita", "rekha", "meera", "anjali"]

/-- The organisation-keyword regex inside `looksLikeIndividualName`. -/
def orgWordsRe : Re :=
  Re.cat [Re.wb,
    Re.alts (["ltd", "limited", "plc", "llp", "inc", "corp", "gmbh", "foundation", "trust",
      "charity", "council", "authority", "university", "college", "institute", "union", "media",
      "news", "group", "holdings", "partners", "association", "society", "organisation",
      "organization", "committee", "board", "agency", "service", "services", "centre", "center",
      "hospital", "school", "company", "companies", "enterprises", "international", "global",
      "uk", "british"].map (fun s => Re.lit s.data)),
    Re.wb]

/-- The `/^[a-z]\.?\s+[a-z]+$/i` "Initial. Surname" shape. -/
def initialSurnameRe : Re :=
  Re.cat [Re.bos, Re.cls isAsciiLetter, Re.opt (Re.lit ".".data), Re.many1 isJsSpace,
    Re.many1 isAsciiLetter, Re.eos]

/-- `looksLikeIndividualName`. -/
def looksLikeIndividualName (name : String) : Bool :=
  let normalized := jsTrim (jsLower name.data)
  if orgWordsRe.searchFrom none normalized then false
  else
    let words := splitWs normalized
    if words.length < 2 || words.length > 4 then false
    else
      let firstName := (words.getD 0 []).filter (fun c => 'a' ≤ c && c ≤ 'z')
      if COMMON_FIRST_NAMES.contains (String.mk firstName) then true
      else initialSurnameRe.searchFrom none normalized

/-- Does the rule match? String patterns are matched as substrings of the
normalized (lower-cased, trimmed) name; regexes are tested against the raw
name (all carry the `i` flag). -/
def ruleMatches (normalized : List Char) (raw : String) (r : ClassificationRule) : Bool :=
  match r.pattern with
  | .str s => jsIncludes normalized (jsLower s.data)
  | .regex re => re.test raw

/-- Stable insertion into a priority-descending list: an element is placed
before the first strictly smaller priority, after equal ones that were
inserted from further right. -/
def insertDesc (r : ClassificationRule) : List ClassificationRule → List ClassificationRule
  | [] => [r]
  | x :: xs => if r.priority ≥ x.priority then r :: x :: xs else x :: insertDesc r xs

/-- Stable descending sort by priority, modelling
`Array.prototype.sort((a, b) => b.priority - a.priority)` (ES2019
`Array.prototype.sort` is stable, and the comparator is consistent, so the
result is the unique stable descending order). -/
def sortByPriorityDesc : List ClassificationRule → List ClassificationRule
  | [] => []
  | x :: xs => insertDesc x (sortByPriorityDesc xs)

/-- The override map: an association list in insertion order
(JavaScript `Map` iteration order). -/
abbrev Overrides := List (String × ClassificationResult)

/-- `Map.prototype.set`: update in place if the key exists, else append. -/
def jsMapSet (m : Overrides) (k : String) (v : ClassificationResult) : Overrides :=
  if m.any (fun kv => kv.1 = k) then
    m.map (fun kv => if kv.1 = k then (k, v) else kv)
  else m ++ [(k, v)]

/-- One entry of the externally-supplied override list. -/
structure OverrideInput where
  pattern : String
  type : PayerType
  subtype : Option String

/-- `PayerClassifier.loadOverrides`: clears the map, then inserts every
entry keyed by its lower-cased pattern. -/
def loadOverrides (ovs : List OverrideInput) : Overrides :=
  ovs.foldl (fun m o => jsMapSet m (String.mk (jsLower o.pattern.data)) ⟨o.type, o.subtype⟩) []

/-- The rules matching a given payer name (the `filter` inside
`classify`). -/
def matchedRules (payerName : String) : List ClassificationRule :=
  let normalized := jsTrim (jsLower payerName.data)
  DEFAULT_RULES.filter (ruleMatches normalized payerName)

/-- `PayerClassifier.classify`. -/
def classify (overrides : Overrides) (payerName : String) : ClassificationResult :=
  let normalized := jsTrim (jsLower payerName.data)
  match overrides.find? (fun kv => kv.1.data = normalized) with
  | some kv => kv.2
  | none =>
    match overrides.find? (fun kv => jsIncludes normalized kv.1.data) with
    | some kv => kv.2
    | none =>
      let sorted := sortByPriorityDesc (DEFAULT_RULES.filter (ruleMatches normalized payerName))
      match sorted with
      | m :: _ => ⟨m.type, m.subtype⟩
      | [] =>
        if looksLikeIndividualName payerName then ⟨.Individual, none⟩
        else ⟨.Company, none⟩

/-- `PayerClassifier.normalizeName`: lower-case, trim, strip all
non-word/non-space characters, collapse whitespace runs to one space. -/
def normalizeName (name : String) : String :=
  String.mk (collapseWs ((jsTrim (jsLower name.data)).filter
    (fun c => isWordChar c || isJsSpace c)))

/-! ## Interest records (src/types/parliament.ts) -/

/-- An interest field: a free-text name, an optional scalar value and an
optional nested `values` list whose entries are either fields or lists of
fields (donor groups).  The unused `description`/`type` metadata of the
TypeScript interface is omitted. -/
inductive InterestField where
  | mk : (name : String) → (value : Option JsVal) →
      (values : Option (List (InterestField ⊕ List InterestField))) → InterestField

/-- An entry of a field's nested `values` array. -/
abbrev FieldElem := InterestField ⊕ List InterestField

def InterestField.name : InterestField → String
  | .mk n _ _ => n

def InterestField.value : InterestField → Option JsVal
  | .mk _ v _ => v

def InterestField.values : InterestField → Option (List FieldElem)
  | .mk _ _ vs => vs

/-- Reading `.value` on a nested entry: arrays have no `value` property
(`undefined`). -/
def elemValue : FieldElem → Option JsVal
  | .inl f => f.value
  | .inr _ => none

structure InterestCategory where
  id : Int
  name : String

/-- A published interest; only the parts the extractor reads are kept
(id, member id, category, summary, own fields, child-interest fields). -/
inductive PublishedInterest where
  | mk : (id : Int) → (summary : String) → (category : InterestCategory) →
      (memberId : Int) → (fields : List InterestField) →
      (childInterests : List PublishedInterest) → PublishedInterest

def PublishedInterest.id : PublishedInterest → Int
  | .mk i _ _ _ _ _ => i

def PublishedInterest.summary : PublishedInterest → String
  | .mk _ s _ _ _ _ => s

def PublishedInterest.category : PublishedInterest → InterestCategory
  | .mk _ _ c _ _ _ => c

def PublishedInterest.memberId : PublishedInterest → Int
  | .mk _ _ _ m _ _ => m

def PublishedInterest.fields : PublishedInterest → List InterestField
  | .mk _ _ _ _ fs _ => fs

def PublishedInterest.childInterests : PublishedInterest → List PublishedInterest
  | .mk _ _ _ _ _ cs => cs

/-! ## Field mappings and lookup (`FIELD_MAPPINGS`, `findField`,
`getFieldValue` in paymentExtractor.ts) -/

namespace FieldMappings

def amount : List String :=
  ["Payment", "Amount, or estimate of the probable value", "Estimated value", "Value",
   "Amount", "Sum", "Total"]

def payer : List String :=
  ["Payer", "Donor", "Source", "Name of donor", "Name of payer", "Organisation", "Company"]

def role : List String :=
  ["Job title", "Role", "Position", "Work", "Service", "Description", "Nature of work"]

def hours : List String := ["Hours worked", "Hours", "Time spent", "Duration"]

def hoursPeriod : List String := ["Period for hours worked", "Period", "Frequency"]

def address : List String :=
  ["Address", "Address of payer", "Address of donor", "Registered address"]

def nature : List String := ["Nature of business", "Business", "Sector"]

def startDate : List String := ["Start date", "From", "Date started", "Commencement date"]

def endDate : List String := ["End date", "To", "Date ended", "Completion date"]

def receivedDate : List String :=
  ["Date received", "Received", "Date of receipt", "Date of donation"]

def regularity : List String := ["Regularity of payment", "Regularity", "Payment frequency"]

def paymentType : List String := ["Payment type", "Type", "Kind"]

def donorStatus : List String := ["DonorStatus", "Donor status", "Status"]

def donorName : List String := ["DonorName", "Donor name", "Name of donor", "Name"]

end FieldMappings

/-- First pass of `findField`: exact case-insensitive name match, trying
each synonym in order over the whole pool. -/
def findExactPass (fields : List InterestField) : List String → Option InterestField
  | [] => none
  | n :: rest =>
    match fields.find? (fun f => jsLower f.name.data = jsLower n.data) with
    | some f => some f
    | none => findExactPass fields rest

/-- The partial-match predicate of `findField`'s second pass, with the
`type`/`description` disambiguation guards. -/
def partialNameMatch (n : String) (f : InterestField) : Bool :=
  let fieldLower := jsLower f.name.data
  let nameLower := jsLower n.data
  if jsIncludes fieldLower "type".data && !(jsIncludes nameLower "type".data) then false
  else if jsIncludes fieldLower "description".data && !(jsIncludes nameLower "description".data)
    then false
  else jsIncludes fieldLower nameLower || jsIncludes nameLower fieldLower

/-- Second pass of `findField`: substring containment in either
direction. -/
def findPartialPass (fields : List InterestField) : List String → Option InterestField
  | [] => none
  | n :: rest =>
    match fields.find? (partialNameMatch n) with
    | some f => some f
    | none => findPartialPass fields rest

/-- `findField`. -/
def findField (fields : List InterestField) (fieldNames : List String) : Option InterestField :=
  match findExactPass fields fieldNames with
  | some f => some f
  | none => findPartialPass fields fieldNames

/-- The direct-value tail of `getFieldValue`: the field's own `value`,
with booleans rejected as `null`. -/
def directValue (f : InterestField) : Option JsVal :=
  match f.value with
  | some (.bool _) => none
  | some v => some v
  | none => none

/-- `getFieldValue`: resolve a field to a scalar, preferring the first
valued entry of a nested `values` list whose head is a valued field
object; boolean values are rejected as `null` at both return sites. -/
def getFieldValue : Option InterestField → Option JsVal
  | none => none
  | some f =>
    match f.values with
    | some (e :: es) =>
      match e with
      | Sum.inl f0 =>
        if f0.value.isSome then
          match (e :: es).find? (fun v => (elemValue v).isSome) with
          | some v =>
            match elemValue v with
            | some (.bool _) => none
            | some val => some val
            | none => directValue f
          | none => directValue f
        else directValue f
      | Sum.inr _ => directValue f
    | _ => directValue f

/-! ## Donor-array extraction (`extractFromDonorsArray`) -/

structure DonorData where
  name : Option String
  address : Option String
  value : Option ℚ
  valueRaw : Option String
  paymentType : Option String
deriving DecidableEq, Repr

/-- Accumulator of the donor loop. -/
structure DonorAcc where
  totalValue : ℚ
  hasValue : Bool
  firstName : Option String
  firstAddress : Option String
  firstPaymentType : Option String
  valueRaw : Option String
deriving DecidableEq, Repr

/-- JavaScript falsiness of a `string | null` slot (`null` and `""`). -/
def strFalsy : Option String → Bool
  | none => true
  | some s => s = ""

/-- The `fieldName === 'value'` branch of the donor-field loop: parse and
accumulate the donor value (a boolean value reaches `parseCurrencyAmount`
and throws). -/
def donorValueStep (acc : DonorAcc) (f : InterestField) : Except String DonorAcc :=
  if jsLower f.name.data = "value".data then
    match f.value with
    | some v =>
      match parseCurrencyAmount (some v) with
      | .error e => .error e
      | .ok (some q) =>
        .ok { acc with
          totalValue := acc.totalValue + q
          hasValue := true
          valueRaw := if strFalsy acc.valueRaw then some (jsValToString v) else acc.valueRaw }
      | .ok none => .ok acc
    | none => .ok acc
  else .ok acc

/-- The name/address/payment-type branches of the donor-field loop: each
takes the first truthy occurrence. -/
def donorTextStep (acc : DonorAcc) (f : InterestField) : DonorAcc :=
  let fieldName := jsLower f.name.data
  let acc2 := if (fieldName = "name".data || fieldName = "donorname".data)
      && strFalsy acc.firstName && jsTruthy f.value then
      { acc with firstName := some (jsValToString (f.value.getD (.str ""))) }
    else acc
  let acc3 := if (fieldName = "publicaddress".data || fieldName = "address".data)
      && strFalsy acc2.firstAddress && jsTruthy f.value then
      { acc2 with firstAddress := some (jsValToString (f.value.getD (.str ""))) }
    else acc2
  if fieldName = "paymenttype".data
      && strFalsy acc3.firstPaymentType && jsTruthy f.value then
    { acc3 with firstPaymentType := some (jsValToString (f.value.getD (.str ""))) }
  else acc3

/-- The body of the inner donor-field loop. -/
def donorStep (acc : DonorAcc) (f : InterestField) : Except String DonorAcc :=
  match donorValueStep acc f with
  | .error e => .error e
  | .ok acc1 => .ok (donorTextStep acc1 f)

/-- The inner donor loop over one donor group's fields. -/
def donorFold (acc : DonorAcc) : List InterestField → Except String DonorAcc
  | [] => .ok acc
  | f :: rest =>
    match donorStep acc f with
    | .error e => .error e
    | .ok acc' => donorFold acc' rest

/-- The outer donor loop over the entries of the `values` array; non-array
entries are skipped (`continue`). -/
def donorElemFold (acc : DonorAcc) : List FieldElem → Except String DonorAcc
  | [] => .ok acc
  | e :: rest =>
    match e with
    | Sum.inl _ => donorElemFold acc rest
    | Sum.inr fs =>
      match donorFold acc fs with
      | .error err => .error err
      | .ok acc' => donorElemFold acc' rest

/-- `fields.find(f => f.name === 'Donors' || ... )`. -/
def findDonorsField (fields : List InterestField) : Option InterestField :=
  fields.find? (fun f =>
    f.name = "Donors" || f.name = "Payers" || f.name = "Sources" || f.name = "Funders")

/-- `extractFromDonorsArray`. -/
def extractFromDonorsArray (fields : List InterestField) : Except String (Option DonorData) :=
  match findDonorsField fields with
  | none => .ok none
  | some df =>
    match df.values with
    | none => .ok none
    | some [] => .ok none
    | some elems =>
      match donorElemFold ⟨0, false, none, none, none, none⟩ elems with
      | .error e => .error e
      | .ok acc =>
        if acc.hasValue then
          .ok (some ⟨acc.firstName, acc.firstAddress, some acc.totalValue, acc.valueRaw,
            acc.firstPaymentType⟩)
        else .ok none

/-! ## Scalar field parsers (`parseHours`, `parseDateField`,
`calculateHourlyRate`) -/

/-- `parseHours`: numbers pass through; strings are stripped to `[\d.]`
and parsed; a boolean (outside the declared type) would make `.replace`
throw. -/
def parseHours : Option JsVal → Except String (Option ℚ)
  | none => .ok none
  | some (.num q) => .ok (some q)
  | some (.bool _) => .error "TypeError: value.replace is not a function"
  | some (.str s) =>
    .ok (jsParseFloat (s.data.filter (fun c => isDigitCh c || c = '.')))

/-- Exactly `n` digits. -/
def digitsRe (n : Nat) : Re := Re.cat (List.replicate n (Re.cls isDigitCh))

/-- `/^\d{4}-\d{2}-\d{2}|^\d{2}\/\d{2}\/\d{4}|^\d{1,2}\s+\w+\s+\d{4}/`. -/
def dateShapeRe : Re :=
  Re.alts [
    Re.cat [Re.bos, digitsRe 4, Re.lit "-".data, digitsRe 2, Re.lit "-".data, digitsRe 2],
    Re.cat [Re.bos, digitsRe 2, Re.lit "/".data, digitsRe 2, Re.lit "/".data, digitsRe 4],
    Re.cat [Re.bos, Re.cls isDigitCh, Re.opt (Re.cls isDigitCh), Re.many1 isJsSpace,
      Re.many1 isWordChar, Re.many1 isJsSpace, digitsRe 4]]

/-- Days in a month of the proleptic Gregorian calendar. -/
def daysInMonth (y m : Nat) : Nat :=
  if m = 2 then
    if (y % 4 = 0 && y % 100 ≠ 0) || y % 400 = 0 then 29 else 28
  else if m = 4 || m = 6 || m = 9 || m = 11 then 30
  else 31

/-- Models `new Date(value).toISOString().split('T')[0]` for the strings
that reach it: a string with a valid ISO `yyyy-mm-dd` prefix (bare or
followed by a `T...` time part) round-trips to its date part; the other
date shapes the guard admits (`DD/MM/YYYY`, `D Month YYYY`) parse
host-dependently and are conservatively modelled as an invalid date
(`none`). -/
def jsDateToIso (s : String) : Option String :=
  let cs := s.data
  let y := cs.take 4
  let m := (cs.drop 5).take 2
  let d := (cs.drop 8).take 2
  if y.all (isDigitCh ·) && y.length = 4 && cs.get? 4 = some '-' &&
      m.all (isDigitCh ·) && m.length = 2 && cs.get? 7 = some '-' &&
      d.all (isDigitCh ·) && d.length = 2 &&
      (cs.length = 10 || cs.get? 10 = some 'T') then
    let yn := digitsToNat y
    let mn := digitsToNat m
    let dn := digitsToNat d
    if 1 ≤ mn && mn ≤ 12 && 1 ≤ dn && dn ≤ daysInMonth yn mn then
      some (String.mk (y ++ '-' :: m ++ '-' :: d))
    else none
  else none

/-- `parseDateField`: rejects `null`, booleans, the literal strings
`"false"`/`"true"` and numbers, requires one of the accepted date shapes,
then parses and re-serializes. -/
def parseDateField (value : Option JsVal) : Option String :=
  match value with
  | none => none
  | some (.bool _) => none
  | some (.str s) =>
    if s = "false" || s = "true" then none
    else if dateShapeRe.test s then jsDateToIso s
    else none
  | some (.num _) => none

/-- `calculateHourlyRate`: `null` unless the amount is truthy and the
hours are truthy and positive. -/
def calculateHourlyRate (amount hours : Option ℚ) : Option ℚ :=
  match amount, hours with
  | some a, some h => if a = 0 || h = 0 || h ≤ 0 then none else some (a / h)
  | _, _ => none

/-! ## The extractor (`extractPaymentFromInterest`) -/

structure ExtractedPayment where
  interestId : Int
  memberId : Int
  categoryId : Int
  amount : Option ℚ
  amountRaw : Option String
  paymentType : Option JsVal
  regularity : Option JsVal
  roleDescription : Option JsVal
  hoursWorked : Option ℚ
  hoursPeriod : Option JsVal
  hourlyRate : Option ℚ
  payerName : Option JsVal
  payerAddress : Option JsVal
  payerNatureOfBusiness : Option JsVal
  payerStatus : Option JsVal
  startDate : Option String
  endDate : Option String
  receivedDate : Option String
  isDonated : Bool
deriving DecidableEq, Repr

/-- The combined pool: own fields plus all child-interest fields. -/
def allFieldsOf (i : PublishedInterest) : List InterestField :=
  i.fields ++ i.childInterests.flatMap PublishedInterest.fields

/-- The pure tail of the extractor, once the donor pass, the direct amount
parse and the hours parse have succeeded (those three calls, in that
order, are the only ones that can throw in the JavaScript function). -/
def buildExtractedPayment (interest : PublishedInterest) (allFields : List InterestField)
    (donorData : Option DonorData) (amountRaw0 : Option JsVal) (amount0 : Option ℚ)
    (hoursWorked : Option ℚ) : ExtractedPayment :=
  -- amount: direct field first, then donor fallback
  let (amount, amountRaw) : Option ℚ × Option JsVal :=
    match donorData with
    | some d =>
      if amount0.isNone && d.value.isSome then (d.value, d.valueRaw.map JsVal.str)
      else (amount0, amountRaw0)
    | none => (amount0, amountRaw0)
  -- payer name: direct field, then donor fallback
  let payerField := findField allFields FieldMappings.payer
  let payerName0 := getFieldValue payerField
  let donorName0 : Option String := match donorData with | some d => d.name | none => none
  let payerName1 :=
    if !(jsTruthy payerName0) && !(strFalsy donorName0) then donorName0.map JsVal.str
    else payerName0
  -- role, with summary fallback
  let roleField := findField allFields FieldMappings.role
  let role0 := getFieldValue roleField
  let roleDescription :=
    if !(jsTruthy role0) && interest.summary ≠ "" then some (JsVal.str interest.summary)
    else role0
  let hoursPeriodField := findField allFields FieldMappings.hoursPeriod
  let hoursPeriod := getFieldValue hoursPeriodField
  let hourlyRate := calculateHourlyRate amount hoursWorked
  -- address, with donor fallback
  let addressField := findField allFields FieldMappings.address
  let addr0 := getFieldValue addressField
  let donorAddr0 : Option String := match donorData with | some d => d.address | none => none
  let payerAddress :=
    if !(jsTruthy addr0) && !(strFalsy donorAddr0) then donorAddr0.map JsVal.str
    else addr0
  let natureField := findField allFields FieldMappings.nature
  let payerNatureOfBusiness := getFieldValue natureField
  let regularityField := findField allFields FieldMappings.regularity
  let regularity := getFieldValue regularityField
  -- payment type, with donor fallback
  let paymentTypeField := findField allFields FieldMappings.paymentType
  let ptype0 := getFieldValue paymentTypeField
  let donorPtype0 : Option String := match donorData with | some d => d.paymentType | none => none
  let paymentType :=
    if !(jsTruthy ptype0) && !(strFalsy donorPtype0) then donorPtype0.map JsVal.str
    else ptype0
  -- dates
  let startDate := parseDateField (getFieldValue (findField allFields FieldMappings.startDate))
  let endDate := parseDateField (getFieldValue (findField allFields FieldMappings.endDate))
  let receivedDate :=
    parseDateField (getFieldValue (findField allFields FieldMappings.receivedDate))
  -- donor status as reported by the API
  let payerStatus := getFieldValue (findField allFields FieldMappings.donorStatus)
  -- last-chance payer name from the DonorName mapping
  let payerName :=
    if !(jsTruthy payerName1) then getFieldValue (findField allFields FieldMappings.donorName)
    else payerName1
  -- donation flag from the category name
  let categoryName := jsLower interest.category.name.data
  let isDonated := jsIncludes categoryName "donation".data || jsIncludes categoryName "gift".data
  {
    interestId := interest.id
    memberId := interest.memberId
    categoryId := interest.category.id
    amount := amount
    amountRaw := amountRaw.bind (fun v =>
      let s := jsValToString v; if s = "" then none else some s)
    paymentType := paymentType
    regularity := regularity
    roleDescription := roleDescription
    hoursWorked := hoursWorked
    hoursPeriod := hoursPeriod
    hourlyRate := hourlyRate
    payerName := payerName
    payerAddress := payerAddress
    payerNatureOfBusiness := payerNatureOfBusiness
    payerStatus := payerStatus
    startDate := startDate
    endDate := endDate
    receivedDate := receivedDate
    isDonated := isDonated }

/-- `extractPaymentFromInterest`.  The `Except` layer records the one way
the JavaScript function can throw: `extractFromDonorsArray` passing a
boolean donor value to `parseCurrencyAmount`.  (The two later parses can
also throw in principle, but `getFieldValue` never produces the boolean
that would make them.) -/
def extractPaymentFromInterest (interest : PublishedInterest) :
    Except String (Option ExtractedPayment) :=
  let allFields := allFieldsOf interest
  if allFields.isEmpty then .ok none
  else
    match extractFromDonorsArray allFields with
    | .error e => .error e
    | .ok donorData =>
      let amountRaw0 := getFieldValue (findField allFields FieldMappings.amount)
      match parseCurrencyAmount amountRaw0 with
      | .error e => .error e
      | .ok amount0 =>
        match parseHours (getFieldValue (findField allFields FieldMappings.hours)) with
        | .error e => .error e
        | .ok hoursWorked =>
          .ok (some (buildExtractedPayment interest allFields donorData amountRaw0 amount0
            hoursWorked))

/-! ## Payer-row construction in `SyncService.processPayments`
(src/lib/sync/syncService.ts)

The loop over extracted payments keeps a `Map` from normalized payer name
to the `Payer` row that will be upserted; only the first payment carrying
a given normalized name creates a row.  The type/subtype of a new row
come from the API-provided `payerStatus` when it maps to a known keyword,
and from `classifier.classify` otherwise. -/

/-- A pending `Payer` row (the object put into `payerMap`). -/
structure PayerRow where
  name : String
  normalized_name : String
  payer_type : PayerType
  payer_subtype : Option String
  address : Option JsVal
  nature_of_business : Option JsVal
  country : Option String
  is_manual_override : Bool
  override_reason : Option String
deriving DecidableEq, Repr

/-- Coerce a JavaScript value that the code treats as a string; a
non-string value would make the subsequent string-method call throw. -/
def jsAsString : JsVal → Except String String
  | .str s => .ok s
  | _ => .error "TypeError: not a string"

/-- `classification.subtype || null`: an empty-string subtype collapses to
`null`. -/
def subtypeOrNull : Option String → Option String
  | none => none
  | some s => if s = "" then none else some s

/-- The type/subtype chosen for a new payer: the mapped `payerStatus`
keywords take precedence, with the classifier as fallback. -/
def resolvePayerType (overrides : Overrides) (payerName : String) (payerStatus : Option JsVal) :
    Except String (PayerType × Option String) :=
  if jsTruthy payerStatus then
    match jsAsString (payerStatus.getD (.str "")) with
    | .error e => .error e
    | .ok statusStr =>
      let statusLower := String.mk (jsLower statusStr.data)
      if statusLower = "individual" || statusLower = "private individual" then
        .ok (.Individual, none)
      else if statusLower = "company" || statusLower = "corporate" then
        .ok (.Company, none)
      else if jsIncludes statusLower.data "government".data
          || jsIncludes statusLower.data "public".data then
        .ok (.Government, none)
      else
        .ok ((classify overrides payerName).type,
          subtypeOrNull (classify overrides payerName).subtype)
  else
    .ok ((classify overrides payerName).type,
      subtypeOrNull (classify overrides payerName).subtype)

/-- The payer map in insertion order. -/
abbrev PayerMap := List (String × PayerRow)

/-- `payerMap.has`. -/
def mapHas (m : PayerMap) (k : String) : Bool := m.any (fun kv => kv.1 = k)

/-- The body of the payer-resolution block for one extracted payment. -/
def processPayerStep (overrides : Overrides) (m : PayerMap) (extracted : ExtractedPayment) :
    Except String PayerMap :=
  if jsTruthy extracted.payerName then
    match jsAsString (extracted.payerName.getD (.str "")) with
    | .error e => .error e
    | .ok nameStr =>
      let normalizedName := normalizeName nameStr
      if mapHas m normalizedName then .ok m
      else
        match resolvePayerType overrides nameStr extracted.payerStatus with
        | .error e => .error e
        | .ok (payerType, payerSubtype) =>
          .ok (m ++ [(normalizedName,
            { name := nameStr
              normalized_name := normalizedName
              payer_type := payerType
              payer_subtype := payerSubtype
              address := extracted.payerAddress
              nature_of_business := extracted.payerNatureOfBusiness
              country := none
              is_manual_override := false
              override_reason := none })])
  else .ok m

/-- The loop of `processPayments`, threading the payer map. -/
def processPayerFold (overrides : Overrides) (m : PayerMap) :
    List ExtractedPayment → Except String PayerMap
  | [] => .ok m
  | p :: rest =>
    match processPayerStep overrides m p with
    | .error e => .error e
    | .ok m' => processPayerFold overrides m' rest

/-- The payer map accumulated by `processPayments` over a run's extracted
payments. -/
def paymentsPayerMap (overrides : Overrides) (payments : List ExtractedPayment) :
    Except String PayerMap :=
  processPayerFold overrides [] payments

/-! ## Helper lemmas -/

theorem jsParseFloat_eq_val (s : List Char) (r : FloatRepr)
    (h : parseFloatRepr s = some r) : jsParseFloat s = some r.val := by
  simp [jsParseFloat, h]

theorem floatVal_nat (ds : List Char) :
    FloatRepr.val ⟨false, ds, [], 0⟩ = (digitsToNat ds : ℚ) := by
  simp [FloatRepr.val, fracValue, pow10, digitsToNat]

/-! ## C4: rule priority and tie-breaking -/

/-- The first rule in list order carrying the maximal priority — the
specification's "highest priority wins, ties broken by first-defined table
order". -/
def firstMaxRule : List ClassificationRule → Option ClassificationRule
  | [] => none
  | r :: rs =>
    match firstMaxRule rs with
    | none => some r
    | some m => if m.priority > r.priority then some m else some r

theorem insertDesc_head (r : ClassificationRule) (s : List ClassificationRule) :
    (insertDesc r s).head? =
      some (match s.head? with
        | none => r
        | some y => if r.priority ≥ y.priority then r else y) := by
  cases s with
  | nil => rfl
  | cons y ys =>
    by_cases hc : r.priority ≥ y.priority
    · simp [insertDesc, hc]
    · simp [insertDesc, hc]

theorem sortByPriorityDesc_head (l : List ClassificationRule) :
    (sortByPriorityDesc l).head? = firstMaxRule l := by
  induction l with
  | nil => rfl
  | cons x xs ih =>
    simp only [sortByPriorityDesc, firstMaxRule, insertDesc_head, ih]
    rcases h : firstMaxRule xs with _ | m
    · simp
    · simp only []
      by_cases hc : m.priority > x.priority
      · simp [hc, show ¬(x.priority ≥ m.priority) from by omega]
      · simp [hc, show x.priority ≥ m.priority from by omega]

/-- C4: with no overrides loaded, when at least one rule matches, `classify`
returns the type and subtype of the matching rule with the strictly highest
priority, ties broken by first-defined table order (the sort is stable). -/
theorem classify_highest_priority (payerName : String) (t : PayerType) (st : Option String)
    (h : (firstMaxRule (matchedRules payerName)).map
        (fun r => ClassificationResult.mk r.type r.subtype) = some ⟨t, st⟩) :
    classify [] payerName = ⟨t, st⟩ := by
  have hrfl : classify [] payerName =
      (match sortByPriorityDesc (matchedRules payerName) with
        | m :: _ => ⟨m.type, m.subtype⟩
        | [] =>
          if looksLikeIndividualName payerName then ⟨.Individual, none⟩
          else ⟨.Company, none⟩) := rfl
  rcases hs : sortByPriorityDesc (matchedRules payerName) with _ | ⟨m, rest⟩
  · have hh := sortByPriorityDesc_head (matchedRules payerName)
    rw [hs] at hh
    rw [← hh] at h
    simp at h
  · have hh := sortByPriorityDesc_head (matchedRules payerName)
    rw [hs] at hh
    rw [← hh] at h
    simp only [List.head?, Option.map_some', Option.some.injEq] at h
    rw [hrfl, hs]
    exact h

/-- Witness for C4: `"Borough Trading Ltd"` (matching the priority-12 `Ltd`
rules) classifies as Company, not Government. -/
theorem classify_highest_priority_witness :
    classify [] "Borough Trading Ltd" = ⟨.Company, none⟩ :=
  classify_highest_priority "Borough Trading Ltd" .Company none (by decide)

/-! ## C5: override precedence -/

/-- C5: `classify` consults the override map before the rule table: an
exact match of the normalized name wins first; failing that, the first
override in load order whose key is a substring of the normalized name
wins; rules are never consulted when either path matches.  In particular an
override mapping `"acme corp"` to Individual wins for `"acme corp"` (exact
path) and `"Acme Corp Ltd"` (substring path) despite the priority-12 `Ltd`
rule. -/
theorem override_precedence :
    (∀ (ov : Overrides) (name : String) (kv : String × ClassificationResult),
      ov.find? (fun e => e.1.data = jsTrim (jsLower name.data)) = some kv →
      classify ov name = kv.2) ∧
    (∀ (ov : Overrides) (name : String) (kv : String × ClassificationResult),
      ov.find? (fun e => e.1.data = jsTrim (jsLower name.data)) = none →
      ov.find? (fun e => jsIncludes (jsTrim (jsLower name.data)) e.1.data) = some kv →
      classify ov name = kv.2) ∧
    classify (loadOverrides [⟨"acme corp", .Individual, none⟩]) "acme corp" =
      ⟨.Individual, none⟩ ∧
    classify (loadOverrides [⟨"acme corp", .Individual, none⟩]) "Acme Corp Ltd" =
      ⟨.Individual, none⟩ := by
  refine ⟨?_, ?_, by decide, by decide⟩
  · intro ov name kv h
    simp only [classify, h]
  · intro ov name kv h1 h2
    simp only [classify, h1, h2]

/-- Witness for C5, exercising both the exact and the substring override
paths at the concrete override `"acme corp" → Individual`. -/
theorem override_precedence_witness :
    classify (loadOverrides [⟨"acme corp", .Individual, none⟩]) "acme corp" =
        ("acme corp", ClassificationResult.mk .Individual none).2 ∧
      classify (loadOverrides [⟨"acme corp", .Individual, none⟩]) "Acme Corp Ltd" =
        ("acme corp", ClassificationResult.mk .Individual none).2 :=
  ⟨override_precedence.1 _ "acme corp" ("acme corp", ⟨.Individual, none⟩) (by decide),
   override_precedence.2.1 _ "Acme Corp Ltd" ("acme corp", ⟨.Individual, none⟩)
     (by decide) (by decide)⟩

/-! ## C9: normalization stability -/

/-- C9: `normalizeName` maps differently-capitalized, punctuated and spaced
spellings of one payer to the same identity key:
`normalizeName "Acme Corp." = normalizeName "ACME CORP" =
normalizeName " acme  corp "` (all equal to `"acme corp"`). -/
theorem normalizeName_stable :
    normalizeName "Acme Corp." = normalizeName "ACME CORP" ∧
    normalizeName "ACME CORP" = normalizeName " acme  corp " ∧
    normalizeName "Acme Corp." = "acme corp" := by
  refine ⟨?_, ?_, ?_⟩ <;> decide

/-! ## C7: currency range midpoint -/

/-- C7: when the cleaned currency string (after the `Estimated value`
capture and the `[£,\s]` strip) contains a dash and both dash-separated
parts parse as floats, `parseCurrencyAmount` returns the arithmetic
midpoint of the two bounds. -/
theorem parseCurrency_range_midpoint (s : String) (mn mx : ℚ)
    (hdash : (cleanedOf s.data).contains '-' = true)
    (hmn : jsParseFloat ((splitOnCh '-' (cleanedOf s.data)).getD 0 []) = some mn)
    (hmx : jsParseFloat ((splitOnCh '-' (cleanedOf s.data)).getD 1 []) = some mx) :
    parseCurrencyAmount (some (.str s)) = .ok (some ((mn + mx) / 2)) := by
  simp only [parseCurrencyAmount, parseCurrencyStr, hdash, if_true, hmn, hmx]

/-- Witness for C7: `parseCurrencyAmount "£10,000-£15,000" = 12500`. -/
theorem parseCurrency_range_midpoint_witness :
    parseCurrencyAmount (some (.str "£10,000-£15,000")) = .ok (some 12500) := by
  have hg0 : (splitOnCh '-' (cleanedOf "£10,000-£15,000".data)).getD 0 [] =
      ['1', '0', '0', '0', '0'] := by decide
  have hg1 : (splitOnCh '-' (cleanedOf "£10,000-£15,000".data)).getD 1 [] =
      ['1', '5', '0', '0', '0'] := by decide
  have hmn : jsParseFloat ((splitOnCh '-' (cleanedOf "£10,000-£15,000".data)).getD 0 []) =
      some ((10000 : ℚ)) := by
    rw [hg0, jsParseFloat_eq_val _ ⟨false, ['1', '0', '0', '0', '0'], [], 0⟩ (by decide),
      floatVal_nat]
    norm_num [show digitsToNat ['1', '0', '0', '0', '0'] = 10000 from by decide]
  have hmx : jsParseFloat ((splitOnCh '-' (cleanedOf "£10,000-£15,000".data)).getD 1 []) =
      some ((15000 : ℚ)) := by
    rw [hg1, jsParseFloat_eq_val _ ⟨false, ['1', '5', '0', '0', '0'], [], 0⟩ (by decide),
      floatVal_nat]
    norm_num [show digitsToNat ['1', '5', '0', '0', '0'] = 15000 from by decide]
  rw [parseCurrency_range_midpoint "£10,000-£15,000" 10000 15000 (by decide) hmn hmx]
  norm_num

/-! ## C10: dash strings that are not fully numeric ranges -/

/-- C10: when the cleaned string contains a dash but at least one bound
does not parse, `parseCurrencyAmount` falls through to `parseFloat` of the
whole cleaned string (leading-prefix semantics); in particular
`"£10,000-TBC"` parses to the lower bound `10000` while `"TBC-£10,000"`
parses to `null`. -/
theorem parseCurrency_dash_fallthrough :
    (∀ s : String, (cleanedOf s.data).contains '-' = true →
      (jsParseFloat ((splitOnCh '-' (cleanedOf s.data)).getD 0 []) = none ∨
        jsParseFloat ((splitOnCh '-' (cleanedOf s.data)).getD 1 []) = none) →
      parseCurrencyAmount (some (.str s)) = .ok (jsParseFloat (cleanedOf s.data))) ∧
    parseCurrencyAmount (some (.str "£10,000-TBC")) = .ok (some 10000) ∧
    parseCurrencyAmount (some (.str "TBC-£10,000")) = .ok none := by
  refine ⟨?_, ?_, ?_⟩
  · intro s hdash hbad
    simp only [parseCurrencyAmount, parseCurrencyStr, hdash, if_true]
    rcases hbad with h | h
    · rw [h]
    · rw [h]
      rcases hmn : jsParseFloat ((splitOnCh '-' (cleanedOf s.data)).getD 0 []) with _ | mn <;>
        rfl
  · have hg0 : (splitOnCh '-' (cleanedOf "£10,000-TBC".data)).getD 0 [] =
        ['1', '0', '0', '0', '0'] := by decide
    have hg1 : (splitOnCh '-' (cleanedOf "£10,000-TBC".data)).getD 1 [] =
        ['T', 'B', 'C'] := by decide
    have hmn : jsParseFloat ((splitOnCh '-' (cleanedOf "£10,000-TBC".data)).getD 0 []) =
        some (FloatRepr.val ⟨false, ['1', '0', '0', '0', '0'], [], 0⟩) := by
      rw [hg0, jsParseFloat_eq_val _ ⟨false, ['1', '0', '0', '0', '0'], [], 0⟩ (by decide)]
    have hmx : jsParseFloat ((splitOnCh '-' (cleanedOf "£10,000-TBC".data)).getD 1 []) =
        none := by
      rw [hg1]
      simp [jsParseFloat, show parseFloatRepr ['T', 'B', 'C'] = none from by decide]
    have hfull : jsParseFloat (cleanedOf "£10,000-TBC".data) = some ((10000 : ℚ)) := by
      rw [show cleanedOf "£10,000-TBC".data =
          ['1', '0', '0', '0', '0', '-', 'T', 'B', 'C'] from by decide,
        jsParseFloat_eq_val _ ⟨false, ['1', '0', '0', '0', '0'], [], 0⟩ (by decide),
        floatVal_nat]
      norm_num [show digitsToNat ['1', '0', '0', '0', '0'] = 10000 from by decide]
    simp only [parseCurrencyAmount, parseCurrencyStr,
      show (cleanedOf "£10,000-TBC".data).contains '-' = true from by decide, if_true,
      hmn, hmx, hfull]
  · decide

/-- Witness for C10's universally-quantified part, applied at
`"£10,000-TBC"`. -/
theorem parseCurrency_dash_fallthrough_witness :
    parseCurrencyAmount (some (.str "£10,000-TBC")) =
      .ok (jsParseFloat (cleanedOf "£10,000-TBC".data)) := by
  refine parseCurrency_dash_fallthrough.1 "£10,000-TBC" (by decide) (Or.inr ?_)
  rw [show (splitOnCh '-' (cleanedOf "£10,000-TBC".data)).getD 1 [] = ['T', 'B', 'C'] from
    by decide]
  simp [jsParseFloat, show parseFloatRepr ['T', 'B', 'C'] = none from by decide]

/-! ## C8: booleans never propagate -/

/-- The value selection performed by `getFieldValue`, without the boolean
filter: the first valued nested entry when the nested branch applies, the
field's own `value` otherwise. -/
def resolvedValue (f : InterestField) : Option JsVal :=
  match f.values with
  | some (e :: es) =>
    match e with
    | Sum.inl f0 =>
      if f0.value.isSome then
        match (e :: es).find? (fun v => (elemValue v).isSome) with
        | some v =>
          match elemValue v with
          | some val => some val
          | none => f.value
        | none => f.value
      else f.value
    | Sum.inr _ => f.value
  | _ => f.value

theorem directValue_eq_bind (f : InterestField) :
    directValue f = f.value.bind (fun v => if v.isBool then none else some v) := by
  unfold directValue
  rcases f.value with _ | v
  · rfl
  · cases v <;> rfl

theorem getFieldValue_resolved (f : InterestField) :
    getFieldValue (some f) =
      (resolvedValue f).bind (fun v => if v.isBool then none else some v) := by
  unfold getFieldValue resolvedValue
  rcases hv : f.values with _ | vs
  · simp only [hv]
    exact directValue_eq_bind f
  · rcases vs with _ | ⟨e, es⟩
    · simp only [hv]
      exact directValue_eq_bind f
    · rcases e with f0 | arr
      · simp only [hv]
        by_cases hf0 : f0.value.isSome
        · simp only [hf0, if_true]
          rcases hfind : (Sum.inl f0 :: es).find? (fun v => (elemValue v).isSome) with _ | v
          · simp only [hfind]
            exact directValue_eq_bind f
          · simp only [hfind]
            rcases helem : elemValue v with _ | val
            · simp only [helem]
              exact directValue_eq_bind f
            · simp only [helem]
              cases val <;> rfl
        · simp only [hf0, if_false]
          exact directValue_eq_bind f
      · simp only [hv]
        exact directValue_eq_bind f

/-- C8: booleans never propagate through the extractor's value accessors:
`getFieldValue` equals the underlying value selection composed with a
filter that maps boolean `true`/`false` to `null` (so a boolean resolved
value yields `null`, never the strings `"true"`/`"false"`), and
`parseDateField` returns `null` for boolean input and for the literal
strings `"false"`/`"true"`. -/
theorem boolean_rejection :
    (∀ f : InterestField, getFieldValue (some f) =
      (resolvedValue f).bind (fun v => if v.isBool then none else some v)) ∧
    (∀ b : Bool, parseDateField (some (.bool b)) = none) ∧
    parseDateField (some (.str "false")) = none ∧
    parseDateField (some (.str "true")) = none :=
  ⟨getFieldValue_resolved, fun _ => rfl, by decide, by decide⟩

/-- `getFieldValue` never returns a boolean. -/
theorem getFieldValue_not_bool (f? : Option InterestField) (b : Bool) :
    getFieldValue f? ≠ some (.bool b) := by
  cases f? with
  | none => simp [getFieldValue]
  | some f =>
    rw [getFieldValue_resolved f]
    rcases h : resolvedValue f with _ | v
    · simp
    · cases v <;> simp [JsVal.isBool]

/-- `parseCurrencyAmount` cannot throw on a `getFieldValue` result. -/
theorem parseCurrencyAmount_getFieldValue (f? : Option InterestField) :
    ∃ r, parseCurrencyAmount (getFieldValue f?) = .ok r := by
  rcases h : getFieldValue f? with _ | v
  · exact ⟨none, rfl⟩
  · cases v with
    | str s => exact ⟨_, rfl⟩
    | num q => exact ⟨_, rfl⟩
    | bool b => exact absurd h (getFieldValue_not_bool f? b)

/-- `parseHours` cannot throw on a `getFieldValue` result. -/
theorem parseHours_getFieldValue (f? : Option InterestField) :
    ∃ r, parseHours (getFieldValue f?) = .ok r := by
  rcases h : getFieldValue f? with _ | v
  · exact ⟨none, rfl⟩
  · cases v with
    | str s => exact ⟨_, rfl⟩
    | num q => exact ⟨_, rfl⟩
    | bool b => exact absurd h (getFieldValue_not_bool f? b)

/-! ## C1: the worked scenario -/

/-- The scenario interest: fields `Payer = "Friends of Example Ltd"`,
`Payment = "£5,000"`. -/
def c1Interest : PublishedInterest :=
  .mk 1 "" ⟨1, "Employment and earnings"⟩ 7
    [.mk "Payer" (some (.str "Friends of Example Ltd")) none,
     .mk "Payment" (some (.str "£5,000")) none] []

/-- Counterexample to C1 as stated: with no overrides,
`classify "Friends of Example Ltd"` returns subtype `none` (the first
priority-12 `Ltd` rule, which carries no subtype, outranks the priority-11
`Friends of` rule), not subtype `"Advocacy Group"`. -/
theorem scenario_classification_cex :
    classify [] "Friends of Example Ltd" = ⟨.Company, none⟩ ∧
    (ClassificationResult.mk .Company none ≠ ⟨.Company, some "Advocacy Group"⟩) := by
  refine ⟨by decide, by decide⟩

/-- C1 (amended): the extractor resolves the scenario interest to an
`ExtractedPayment` with amount `5000` and payer name
`"Friends of Example Ltd"`, and with no overrides that name classifies as
type Company with no subtype (the priority-12 `Ltd` rules beat the
priority-11 `Friends of` rule, and the winning rule carries no subtype). -/
theorem scenario_extraction_and_classification :
    (∃ p : ExtractedPayment,
      extractPaymentFromInterest c1Interest = .ok (some p) ∧
      p.amount = some 5000 ∧
      p.payerName = some (.str "Friends of Example Ltd")) ∧
    classify [] "Friends of Example Ltd" = ⟨.Company, none⟩ := by
  constructor
  · refine ⟨buildExtractedPayment c1Interest (allFieldsOf c1Interest) none
      (some (.str "£5,000")) (some (FloatRepr.val ⟨false, ['5', '0', '0', '0'], [], 0⟩))
      none, rfl, ?_, ?_⟩
    · show some (FloatRepr.val ⟨false, ['5', '0', '0', '0'], [], 0⟩) = some (5000 : ℚ)
      rw [floatVal_nat]
      norm_num [show digitsToNat ['5', '0', '0', '0'] = 5000 from by decide]
    · decide
  · decide

/-! ## C2: donor-array aggregation

Specification-side descriptions of what the donor pass computes, phrased
independently of the fold: the parseable numeric `value` sub-fields across
all donor groups, and the first truthy name/address/payment-type. -/

/-- The concatenation of the donor groups (non-array entries contribute
nothing), in iteration order. -/
def donorFieldsOf (elems : List FieldElem) : List InterestField :=
  elems.flatMap (fun e => match e with | Sum.inl _ => [] | Sum.inr fs => fs)

/-- The parsed numeric value of a donor sub-field named `value`
(`none` when the name differs, the value is absent, or it fails to
parse). -/
def fieldParsedValue (f : InterestField) : Option ℚ :=
  if jsLower f.name.data = "value".data then
    match f.value with
    | some v =>
      match parseCurrencyAmount (some v) with
      | .ok r => r
      | .error _ => none
    | none => none
  else none

/-- All parseable numeric donor values, in iteration order. -/
def donorParsedValues (elems : List FieldElem) : List ℚ :=
  (donorFieldsOf elems).filterMap fieldParsedValue

/-- A donor sub-field supplying a payer name. -/
def isNameField (f : InterestField) : Bool :=
  (jsLower f.name.data = "name".data || jsLower f.name.data = "donorname".data)
    && jsTruthy f.value

/-- A donor sub-field supplying an address. -/
def isAddressField (f : InterestField) : Bool :=
  (jsLower f.name.data = "publicaddress".data || jsLower f.name.data = "address".data)
    && jsTruthy f.value

/-- A donor sub-field supplying a payment type. -/
def isPaymentTypeField (f : InterestField) : Bool :=
  jsLower f.name.data = "paymenttype".data && jsTruthy f.value

/-- The string stored from a donor sub-field (`String(field.value)`). -/
def fieldText (f : InterestField) : String := jsValToString (f.value.getD (.str ""))

/-- The first donor name across all groups. -/
def firstDonorName (elems : List FieldElem) : Option String :=
  ((donorFieldsOf elems).find? isNameField).map fieldText

/-- The first donor address across all groups. -/
def firstDonorAddress (elems : List FieldElem) : Option String :=
  ((donorFieldsOf elems).find? isAddressField).map fieldText

/-- The first donor payment type across all groups. -/
def firstDonorPaymentType (elems : List FieldElem) : Option String :=
  ((donorFieldsOf elems).find? isPaymentTypeField).map fieldText

/-- A donor `value` sub-field holding a boolean — the one input on which
the donor pass throws. -/
def boolValueField (f : InterestField) : Bool :=
  jsLower f.name.data = "value".data &&
    (match f.value with | some (.bool _) => true | _ => false)

/-- Does any donor group contain a boolean `value` sub-field? -/
def hasBoolDonorValue (elems : List FieldElem) : Bool :=
  (donorFieldsOf elems).any boolValueField

/-- Non-emptiness of the decimal rendering. -/
theorem natToString_ne_empty (n : Nat) : natToString n ≠ "" := by
  unfold natToString
  rcases n with _ | m
  · decide
  · simp only [if_neg (Nat.succ_ne_zero m)]
    intro h
    have hd : natDigitsAux (m + 1) (m + 1) = [] := congrArg String.data h
    simp [natDigitsAux] at hd

theorem jsNumToString_ne_empty (q : ℚ) : jsNumToString q ≠ "" := by
  unfold jsNumToString
  split
  · split
    · intro h
      have : ("-" ++ natToString q.num.natAbs).data = [] := congrArg String.data h
      simp at this
    · exact natToString_ne_empty _
  · intro h
    have : (natToString q.num.natAbs ++ "/" ++ natToString q.den).data = [] :=
      congrArg String.data h
    simp at this

/-- A truthy field value renders to a non-empty string. -/
theorem jsValToString_truthy (v : JsVal) (h : v.truthy = true) : jsValToString v ≠ "" := by
  cases v with
  | str s =>
    simp only [JsVal.truthy] at h
    simpa [jsValToString] using of_decide_eq_true h
  | num q => exact jsNumToString_ne_empty q
  | bool b => cases b <;> simp_all [jsValToString]

/-- The text taken from a matching donor sub-field is non-empty (all three
selectors require a truthy value). -/
theorem fieldText_ne_empty (f : InterestField) (h : jsTruthy f.value = true) :
    fieldText f ≠ "" := by
  unfold fieldText
  rcases hv : f.value with _ | v
  · rw [hv] at h
    simp [jsTruthy] at h
  · rw [hv] at h
    exact jsValToString_truthy v h

/-- One text slot's update for one donor sub-field: take the field's text
when the selector matches and the slot is still falsy. -/
def slotStep (p : InterestField → Bool) (s : Option String) (f : InterestField) :
    Option String :=
  if p f && strFalsy s then some (fieldText f) else s

theorem donorValueStep_ok (acc accV : DonorAcc) (f : InterestField)
    (h : donorValueStep acc f = .ok accV) :
    accV.totalValue = acc.totalValue + (fieldParsedValue f).getD 0 ∧
    accV.hasValue = (acc.hasValue || (fieldParsedValue f).isSome) ∧
    accV.firstName = acc.firstName ∧
    accV.firstAddress = acc.firstAddress ∧
    accV.firstPaymentType = acc.firstPaymentType := by
  unfold donorValueStep at h
  by_cases hn : jsLower f.name.data = "value".data
  · rw [if_pos hn] at h
    rcases hv : f.value with _ | v
    · simp only [hv] at h
      have hfp : fieldParsedValue f = none := by simp [fieldParsedValue, hn, hv]
      injection h with h
      subst h
      simp [hfp]
    · simp only [hv] at h
      rcases hp : parseCurrencyAmount (some v) with e | r
      · rw [hp] at h
        exact Except.noConfusion h
      · rw [hp] at h
        have hfp : fieldParsedValue f = r := by simp [fieldParsedValue, hn, hv, hp]
        rcases r with _ | q
        · injection h with h
          subst h
          simp [hfp]
        · injection h with h
          subst h
          simp [hfp]
  · rw [if_neg hn] at h
    have hfp : fieldParsedValue f = none := by simp [fieldParsedValue, hn]
    injection h with h
    subst h
    simp [hfp]

theorem donorTextStep_char (acc : DonorAcc) (f : InterestField) :
    (donorTextStep acc f).totalValue = acc.totalValue ∧
    (donorTextStep acc f).hasValue = acc.hasValue ∧
    (donorTextStep acc f).valueRaw = acc.valueRaw ∧
    (donorTextStep acc f).firstName = slotStep isNameField acc.firstName f ∧
    (donorTextStep acc f).firstAddress = slotStep isAddressField acc.firstAddress f ∧
    (donorTextStep acc f).firstPaymentType = slotStep isPaymentTypeField acc.firstPaymentType f
    := by
  simp only [donorTextStep, slotStep, isNameField, isAddressField, isPaymentTypeField]
  split_ifs <;> simp_all [fieldText]

theorem donorStep_ok (acc acc₁ : DonorAcc) (f : InterestField)
    (h : donorStep acc f = .ok acc₁) :
    acc₁.totalValue = acc.totalValue + (fieldParsedValue f).getD 0 ∧
    acc₁.hasValue = (acc.hasValue || (fieldParsedValue f).isSome) ∧
    acc₁.firstName = slotStep isNameField acc.firstName f ∧
    acc₁.firstAddress = slotStep isAddressField acc.firstAddress f ∧
    acc₁.firstPaymentType = slotStep isPaymentTypeField acc.firstPaymentType f := by
  unfold donorStep at h
  rcases hv : donorValueStep acc f with e | accV
  · rw [hv] at h
    exact Except.noConfusion h
  · rw [hv] at h
    injection h with h
    subst h
    obtain ⟨h1, h2, h3, h4, h5⟩ := donorValueStep_ok acc accV f hv
    obtain ⟨t1, t2, _, t4, t5, t6⟩ := donorTextStep_char accV f
    exact ⟨by rw [t1, h1], by rw [t2, h2], by rw [t4, h3], by rw [t5, h4], by rw [t6, h5]⟩

theorem donorFold_char (L : List InterestField) (acc acc' : DonorAcc)
    (h : donorFold acc L = .ok acc') :
    acc'.totalValue = acc.totalValue + (L.filterMap fieldParsedValue).sum ∧
    acc'.hasValue = (acc.hasValue || L.any (fun f => (fieldParsedValue f).isSome)) ∧
    acc'.firstName = L.foldl (slotStep isNameField) acc.firstName ∧
    acc'.firstAddress = L.foldl (slotStep isAddressField) acc.firstAddress ∧
    acc'.firstPaymentType = L.foldl (slotStep isPaymentTypeField) acc.firstPaymentType := by
  induction L generalizing acc with
  | nil =>
    unfold donorFold at h
    injection h with h
    subst h
    simp
  | cons f rest ih =>
    unfold donorFold at h
    rcases hstep : donorStep acc f with e | acc₁
    · rw [hstep] at h
      exact Except.noConfusion h
    · rw [hstep] at h
      obtain ⟨s1, s2, s3, s4, s5⟩ := donorStep_ok acc acc₁ f hstep
      obtain ⟨i1, i2, i3, i4, i5⟩ := ih acc₁ h
      refine ⟨?_, ?_, ?_, ?_, ?_⟩
      · rw [i1, s1]
        rcases hval : fieldParsedValue f with _ | q <;>
          simp [List.filterMap_cons, hval, add_assoc]
      · rw [i2, s2]
        simp [List.any_cons, Bool.or_assoc]
      · rw [i3, s3]
        simp [List.foldl_cons]
      · rw [i4, s4]
        simp [List.foldl_cons]
      · rw [i5, s5]
        simp [List.foldl_cons]

theorem donorFold_append (L1 L2 : List InterestField) (acc : DonorAcc) :
    donorFold acc (L1 ++ L2) =
      match donorFold acc L1 with
      | .error e => .error e
      | .ok a => donorFold a L2 := by
  induction L1 generalizing acc with
  | nil => rfl
  | cons f L1 ih =>
    have e1 : donorFold acc ((f :: L1) ++ L2) =
        (match donorStep acc f with
          | .error e => .error e
          | .ok a => donorFold a (L1 ++ L2)) := rfl
    have e2 : donorFold acc (f :: L1) =
        (match donorStep acc f with
          | .error e => .error e
          | .ok a => donorFold a L1) := rfl
    rw [e1, e2]
    rcases hstep : donorStep acc f with e | acc₁ <;> simp only [hstep]
    exact ih acc₁

theorem donorElemFold_eq (elems : List FieldElem) (acc : DonorAcc) :
    donorElemFold acc elems = donorFold acc (donorFieldsOf elems) := by
  induction elems generalizing acc with
  | nil => rfl
  | cons e rest ih =>
    cases e with
    | inl f =>
      simp only [donorElemFold, donorFieldsOf, List.flatMap_cons, List.nil_append]
      exact ih acc
    | inr fs =>
      simp only [donorElemFold, donorFieldsOf, List.flatMap_cons, donorFold_append]
      rcases hf : donorFold acc fs with e | acc₁
      · rfl
      · exact ih acc₁

/-- The fold over maximal-run slots, read off as "first match":
requires that a selected field's text is non-empty, which all three
selectors guarantee via their truthiness conjunct. -/
theorem foldl_slotStep_eq (p : InterestField → Bool)
    (hp : ∀ f, p f = true → fieldText f ≠ "") (s : Option String) (L : List InterestField) :
    L.foldl (slotStep p) s =
      (if strFalsy s then
        (match L.find? p with
          | some f => some (fieldText f)
          | none => s)
      else s) := by
  induction L generalizing s with
  | nil => split <;> rfl
  | cons f rest ih =>
    simp only [List.foldl_cons]
    by_cases hs : strFalsy s = true
    · by_cases hf : p f = true
      · have hstep : slotStep p s f = some (fieldText f) := by simp [slotStep, hf, hs]
        rw [hstep, ih]
        have hne : strFalsy (some (fieldText f)) = false := by
          simp only [strFalsy, decide_eq_false_iff_not]
          exact hp f hf
        rw [hne, if_neg (by simp)]
        simp [List.find?, hf, hs]
      · have hstep : slotStep p s f = s := by simp [slotStep, hf]
        rw [hstep, ih]
        simp [List.find?, hf]
    · have hs' : strFalsy s = false := by revert hs; cases strFalsy s <;> simp
      have hstep : slotStep p s f = s := by simp [slotStep, hs']
      rw [hstep, ih]
      simp [hs']

theorem isNameField_text_ne_empty : ∀ f, isNameField f = true → fieldText f ≠ "" := by
  intro f hf
  unfold isNameField at hf
  exact fieldText_ne_empty f ((Bool.and_eq_true _ _).mp hf).2

theorem isAddressField_text_ne_empty : ∀ f, isAddressField f = true → fieldText f ≠ "" := by
  intro f hf
  unfold isAddressField at hf
  exact fieldText_ne_empty f ((Bool.and_eq_true _ _).mp hf).2

theorem isPaymentTypeField_text_ne_empty : ∀ f, isPaymentTypeField f = true → fieldText f ≠ "" := by
  intro f hf
  unfold isPaymentTypeField at hf
  exact fieldText_ne_empty f ((Bool.and_eq_true _ _).mp hf).2

/-- A `foldl slotStep` from an initially-`null` slot is exactly "first
matching field's text". -/
theorem foldl_slotStep_none (p : InterestField → Bool)
    (hp : ∀ f, p f = true → fieldText f ≠ "") (L : List InterestField) :
    L.foldl (slotStep p) none = (L.find? p).map fieldText := by
  rw [foldl_slotStep_eq p hp none L]
  simp only [strFalsy, if_true]
  rcases L.find? p with _ | f <;> simp

/-- What `extractFromDonorsArray` returns when it yields donor data: the
aggregate sum of all parseable values and the first truthy
name/address/payment-type, with at least one parseable value present. -/
theorem extractFromDonorsArray_ok_some (fields : List InterestField) (d : DonorData)
    (h : extractFromDonorsArray fields = .ok (some d)) :
    ∃ df elems, findDonorsField fields = some df ∧ df.values = some elems ∧
      d.value = some (donorParsedValues elems).sum ∧
      donorParsedValues elems ≠ [] ∧
      d.name = firstDonorName elems ∧
      d.address = firstDonorAddress elems ∧
      d.paymentType = firstDonorPaymentType elems := by
  unfold extractFromDonorsArray at h
  rcases hdf : findDonorsField fields with _ | df
  · simp only [hdf] at h
    exact absurd (Except.ok.inj h) (by simp)
  · simp only [hdf] at h
    rcases hv : df.values with _ | elems
    · simp only [hv] at h
      exact absurd (Except.ok.inj h) (by simp)
    · rcases elems with _ | ⟨e, es⟩
      · simp only [hv] at h
        exact absurd (Except.ok.inj h) (by simp)
      · simp only [hv] at h
        rcases hfold : donorElemFold ⟨0, false, none, none, none, none⟩ (e :: es) with err | acc
        · simp only [hfold] at h
          exact Except.noConfusion h
        · simp only [hfold] at h
          rw [donorElemFold_eq] at hfold
          obtain ⟨h1, h2, h3, h4, h5⟩ :=
            donorFold_char (donorFieldsOf (e :: es)) ⟨0, false, none, none, none, none⟩ acc hfold
          rcases hhas : acc.hasValue with _ | _
          · simp only [hhas, if_false] at h
            exact absurd (Except.ok.inj h) (by simp)
          · simp only [hhas, if_true] at h
            have hd' := Option.some.inj (Except.ok.inj h)
            subst hd'
            refine ⟨df, e :: es, rfl, hv, ?_, ?_, ?_, ?_, ?_⟩
            · show some acc.totalValue = _
              rw [h1]
              simp [donorParsedValues]
            · have hany : (donorFieldsOf (e :: es)).any
                  (fun f => (fieldParsedValue f).isSome) = true := by
                have h2' := h2
                rw [hhas] at h2'
                simpa using h2'.symm
              rw [List.any_eq_true] at hany
              obtain ⟨f, hfmem, hfsome⟩ := hany
              intro hnil
              rcases hq : fieldParsedValue f with _ | q
              · rw [hq] at hfsome
                simp at hfsome
              · have hqmem : q ∈ donorParsedValues (e :: es) :=
                  List.mem_filterMap.mpr ⟨f, hfmem, hq⟩
                rw [hnil] at hqmem
                simp at hqmem
            · show acc.firstName = _
              rw [h3, foldl_slotStep_none _ isNameField_text_ne_empty]
              rfl
            · show acc.firstAddress = _
              rw [h4, foldl_slotStep_none _ isAddressField_text_ne_empty]
              rfl
            · show acc.firstPaymentType = _
              rw [h5, foldl_slotStep_none _ isPaymentTypeField_text_ne_empty]
              rfl

theorem parseCurrencyAmount_ok_of_not_bool (v : JsVal) (h : v.isBool = false) :
    ∃ r, parseCurrencyAmount (some v) = .ok r := by
  cases v with
  | str s => exact ⟨_, rfl⟩
  | num q => exact ⟨_, rfl⟩
  | bool b => simp [JsVal.isBool] at h

theorem donorValueStep_total (acc : DonorAcc) (f : InterestField)
    (h : boolValueField f = false) : ∃ accV, donorValueStep acc f = .ok accV := by
  unfold donorValueStep
  by_cases hn : jsLower f.name.data = "value".data
  · rw [if_pos hn]
    rcases hv : f.value with _ | v
    · exact ⟨acc, rfl⟩
    · have hvb : v.isBool = false := by
        unfold boolValueField at h
        rw [hv] at h
        cases v <;> simp_all [JsVal.isBool]
      obtain ⟨r, hr⟩ := parseCurrencyAmount_ok_of_not_bool v hvb
      rcases r with _ | q <;> simp only [hr] <;> exact ⟨_, rfl⟩
  · rw [if_neg hn]
    exact ⟨acc, rfl⟩

theorem donorStep_total (acc : DonorAcc) (f : InterestField)
    (h : boolValueField f = false) : ∃ acc₁, donorStep acc f = .ok acc₁ := by
  obtain ⟨accV, hV⟩ := donorValueStep_total acc f h
  unfold donorStep
  rw [hV]
  exact ⟨_, rfl⟩

theorem donorStep_error_of_bool (acc : DonorAcc) (f : InterestField)
    (h : boolValueField f = true) :
    donorStep acc f = .error "TypeError: value.match is not a function" := by
  unfold boolValueField at h
  obtain ⟨hn, hb⟩ := (Bool.and_eq_true _ _).mp h
  rcases hv : f.value with _ | v
  · rw [hv] at hb
    simp at hb
  · rcases v with s | q | b
    · rw [hv] at hb
      simp at hb
    · rw [hv] at hb
      simp at hb
    · unfold donorStep donorValueStep
      rw [if_pos (of_decide_eq_true hn), hv]
      rfl

theorem donorFold_total (L : List InterestField) (acc : DonorAcc)
    (h : L.any boolValueField = false) : ∃ acc', donorFold acc L = .ok acc' := by
  induction L generalizing acc with
  | nil => exact ⟨acc, rfl⟩
  | cons f rest ih =>
    rw [List.any_cons, Bool.or_eq_false_iff] at h
    obtain ⟨acc₁, h₁⟩ := donorStep_total acc f h.1
    obtain ⟨acc', h'⟩ := ih acc₁ h.2
    unfold donorFold
    rw [h₁]
    exact ⟨acc', h'⟩

theorem donorFold_error (L : List InterestField) (acc : DonorAcc)
    (h : L.any boolValueField = true) :
    donorFold acc L = .error "TypeError: value.match is not a function" := by
  induction L generalizing acc with
  | nil => simp at h
  | cons f rest ih =>
    rcases hb : boolValueField f with _ | _
    · rw [List.any_cons, hb, Bool.false_or] at h
      obtain ⟨acc₁, h₁⟩ := donorStep_total acc f hb
      unfold donorFold
      rw [h₁]
      exact ih acc₁ h
    · unfold donorFold
      rw [donorStep_error_of_bool acc f hb]

/-- Does the donor pass throw on this field pool?  Exactly when a found
donors field has a non-empty `values` array containing a boolean `value`
sub-field. -/
def donorPassThrows (fields : List InterestField) : Bool :=
  match findDonorsField fields with
  | none => false
  | some df =>
    match df.values with
    | none => false
    | some [] => false
    | some elems => hasBoolDonorValue elems

theorem extractFromDonorsArray_isOk (fields : List InterestField) :
    (extractFromDonorsArray fields).isOk = !donorPassThrows fields := by
  rcases hdf : findDonorsField fields with _ | df
  · simp only [extractFromDonorsArray, donorPassThrows, hdf]
    rfl
  · rcases hv : df.values with _ | elems
    · simp only [extractFromDonorsArray, donorPassThrows, hdf, hv]
      rfl
    · rcases elems with _ | ⟨e, es⟩
      · simp only [extractFromDonorsArray, donorPassThrows, hdf, hv]
        rfl
      · rcases hB : hasBoolDonorValue (e :: es) with _ | _
        · obtain ⟨acc', h'⟩ := donorFold_total (donorFieldsOf (e :: es))
            ⟨0, false, none, none, none, none⟩ hB
          rw [← donorElemFold_eq] at h'
          simp only [extractFromDonorsArray, donorPassThrows, hdf, hv, h', hB]
          rcases acc'.hasValue with _ | _ <;> rfl
        · have h' := donorFold_error (donorFieldsOf (e :: es))
            ⟨0, false, none, none, none, none⟩ hB
          rw [← donorElemFold_eq] at h'
          simp only [extractFromDonorsArray, donorPassThrows, hdf, hv, h', hB]
          rfl

/-- When the donor pass succeeds but no donor group contains a parseable
numeric value, it yields nothing. -/
theorem extractFromDonorsArray_ok_none (fields : List InterestField) (df : InterestField)
    (elems : List FieldElem) (hdf : findDonorsField fields = some df)
    (hv : df.values = some elems) (hnb : hasBoolDonorValue elems = false)
    (hnone : donorParsedValues elems = []) :
    extractFromDonorsArray fields = .ok none := by
  rcases elems with _ | ⟨e, es⟩
  · simp only [extractFromDonorsArray, hdf, hv]
  · obtain ⟨acc', h'⟩ := donorFold_total (donorFieldsOf (e :: es))
      ⟨0, false, none, none, none, none⟩ hnb
    obtain ⟨_, h2, _, _, _⟩ :=
      donorFold_char (donorFieldsOf (e :: es)) ⟨0, false, none, none, none, none⟩ acc' h'
    rw [← donorElemFold_eq] at h'
    simp only [extractFromDonorsArray, hdf, hv, h']
    have hany : (donorFieldsOf (e :: es)).any (fun f => (fieldParsedValue f).isSome) = false := by
      rw [Bool.eq_false_iff]
      intro hc
      rw [List.any_eq_true] at hc
      obtain ⟨f, hfmem, hfsome⟩ := hc
      rcases hq : fieldParsedValue f with _ | q
      · rw [hq] at hfsome
        simp at hfsome
      · have hqmem : q ∈ donorParsedValues (e :: es) :=
          List.mem_filterMap.mpr ⟨f, hfmem, hq⟩
        rw [hnone] at hqmem
        simp at hqmem
    rw [hany] at h2
    simp only [Bool.or_false] at h2
    rw [h2]
    rfl

/-- The C2 example interest: a `Donors` field with two donor groups
valued 1000 and 2000, and no direct amount field. -/
def donorsExampleInterest : PublishedInterest :=
  .mk 2 "" ⟨4, "Visits"⟩ 7
    [.mk "Donors" none (some [Sum.inr [.mk "Value" (some (.num 1000)) none],
                              Sum.inr [.mk "Value" (some (.num 2000)) none]])] []

/-- Counterexample to C2 as stated: a donor group whose only `value`
sub-field holds a boolean contains no parseable numeric value, yet the
donor pass throws a `TypeError` instead of yielding nothing. -/
theorem donor_array_aggregation_cex :
    donorParsedValues [Sum.inr [InterestField.mk "Value" (some (.bool true)) none]] = [] ∧
    extractFromDonorsArray
        [InterestField.mk "Donors" none
          (some [Sum.inr [InterestField.mk "Value" (some (.bool true)) none]])] =
      .error "TypeError: value.match is not a function" :=
  ⟨rfl, rfl⟩

/-- C2 (amended): the donor-array pass sums every parseable numeric
`value` sub-field across all donor groups into one aggregate amount, takes
the first truthy name/address/payment-type, and — provided no donor
`value` sub-field holds a boolean, which instead makes the pass throw —
yields nothing when no donor group contains a parseable numeric value.
In particular the two-donor 1000 + 2000 interest extracts to a payment
with amount 3000. -/
theorem donor_array_aggregation :
    (∀ (fields : List InterestField) (d : DonorData),
      extractFromDonorsArray fields = .ok (some d) →
      ∃ df elems, findDonorsField fields = some df ∧ df.values = some elems ∧
        d.value = some (donorParsedValues elems).sum ∧
        donorParsedValues elems ≠ [] ∧
        d.name = firstDonorName elems ∧
        d.address = firstDonorAddress elems ∧
        d.paymentType = firstDonorPaymentType elems) ∧
    (∀ (fields : List InterestField) (df : InterestField) (elems : List FieldElem),
      findDonorsField fields = some df → df.values = some elems →
      hasBoolDonorValue elems = false → donorParsedValues elems = [] →
      extractFromDonorsArray fields = .ok none) ∧
    (∃ p : ExtractedPayment,
      extractPaymentFromInterest donorsExampleInterest = .ok (some p) ∧
      p.amount = some 3000) := by
  refine ⟨extractFromDonorsArray_ok_some, extractFromDonorsArray_ok_none, ?_⟩
  refine ⟨buildExtractedPayment donorsExampleInterest (allFieldsOf donorsExampleInterest)
    (some ⟨none, none, some ((0 : ℚ) + 1000 + 2000), some (jsValToString (JsVal.num 1000)),
      none⟩) none none none, rfl, ?_⟩
  show some ((0 : ℚ) + 1000 + 2000) = some (3000 : ℚ)
  norm_num

/-- Witness for C2's universally-quantified parts, applied at the
two-donor example's field pool. -/
theorem donor_array_aggregation_witness :
    ∃ df elems, findDonorsField (allFieldsOf donorsExampleInterest) = some df ∧
      df.values = some elems ∧
      (DonorData.mk none none (some ((0 : ℚ) + 1000 + 2000))
          (some (jsValToString (JsVal.num 1000))) none).value =
        some (donorParsedValues elems).sum ∧
      donorParsedValues elems ≠ [] ∧
      (DonorData.mk none none (some ((0 : ℚ) + 1000 + 2000))
          (some (jsValToString (JsVal.num 1000))) none).name = firstDonorName elems ∧
      (DonorData.mk none none (some ((0 : ℚ) + 1000 + 2000))
          (some (jsValToString (JsVal.num 1000))) none).address = firstDonorAddress elems ∧
      (DonorData.mk none none (some ((0 : ℚ) + 1000 + 2000))
          (some (jsValToString (JsVal.num 1000))) none).paymentType =
        firstDonorPaymentType elems :=
  donor_array_aggregation.1 (allFieldsOf donorsExampleInterest)
    ⟨none, none, some ((0 : ℚ) + 1000 + 2000), some (jsValToString (JsVal.num 1000)), none⟩
    rfl

/-! ## C3: extractor failure semantics -/

/-- An interest whose only field has no value at all: a non-empty but
unusable pool. -/
def unusableFieldInterest : PublishedInterest :=
  .mk 3 "" ⟨1, "Employment and earnings"⟩ 7 [.mk "X" none none] []

/-- An interest whose donor group carries a boolean `Value`. -/
def boolDonorInterest : PublishedInterest :=
  .mk 4 "" ⟨1, "Employment and earnings"⟩ 7
    [.mk "Donors" none (some [Sum.inr [.mk "Value" (some (.bool true)) none]])] []

/-- Counterexample to C3 as stated: an interest whose one field is
unusable yields an all-null payment, not `none`; and an interest with a
boolean donor `Value` makes the extractor throw. -/
theorem extractor_failure_cex :
    (∃ p : ExtractedPayment,
      extractPaymentFromInterest unusableFieldInterest = .ok (some p) ∧
      p.amount = none ∧ p.payerName = none ∧ p.payerAddress = none ∧
      p.roleDescription = none ∧ p.startDate = none) ∧
    extractPaymentFromInterest boolDonorInterest =
      .error "TypeError: value.match is not a function" :=
  ⟨⟨_, rfl, rfl, rfl, rfl, rfl, rfl⟩, rfl⟩

/-- C3 (amended): the extractor throws exactly when the donor pass does —
a found donors field whose non-empty `values` hold a boolean `value`
sub-field — and otherwise never throws; it returns `none` exactly when the
combined pool of own and child-interest fields is empty (a non-empty pool
of unusable fields yields an all-null payment instead). -/
theorem extractor_failure_semantics :
    (∀ i : PublishedInterest,
      (extractPaymentFromInterest i).isOk = !donorPassThrows (allFieldsOf i)) ∧
    (∀ i : PublishedInterest,
      extractPaymentFromInterest i = .ok none ↔ allFieldsOf i = []) := by
  have main : ∀ i : PublishedInterest,
      (allFieldsOf i ≠ [] → (extractPaymentFromInterest i).isOk = true →
        ∃ p, extractPaymentFromInterest i = .ok (some p)) ∧
      (extractPaymentFromInterest i).isOk = !donorPassThrows (allFieldsOf i) ∧
      (allFieldsOf i = [] → extractPaymentFromInterest i = .ok none) := by
    intro i
    by_cases hemp : (allFieldsOf i).isEmpty
    · rw [List.isEmpty_iff] at hemp
      have hex : extractPaymentFromInterest i = .ok none := by
        unfold extractPaymentFromInterest
        simp [hemp]
      have hth : donorPassThrows (allFieldsOf i) = false := by
        rw [hemp]
        rfl
      rw [hex, hth]
      exact ⟨fun hne _ => absurd hemp hne, rfl, fun _ => rfl⟩
    · have hemp' : (allFieldsOf i).isEmpty = false := by
        revert hemp
        cases (allFieldsOf i).isEmpty <;> simp
      have hne : allFieldsOf i ≠ [] := by
        intro hc
        rw [hc] at hemp'
        simp at hemp'
      rcases hdon : extractFromDonorsArray (allFieldsOf i) with e | dd
      · have hex : extractPaymentFromInterest i = .error e := by
          unfold extractPaymentFromInterest
          simp [hemp', hdon]
        have hth := extractFromDonorsArray_isOk (allFieldsOf i)
        rw [hdon] at hth
        rw [hex]
        refine ⟨fun _ hc => absurd hc (by simp [Except.isOk, Except.toBool]), ?_,
          fun hc => absurd hc hne⟩
        exact hth
      · obtain ⟨r1, hr1⟩ := parseCurrencyAmount_getFieldValue
          (findField (allFieldsOf i) FieldMappings.amount)
        obtain ⟨r2, hr2⟩ := parseHours_getFieldValue
          (findField (allFieldsOf i) FieldMappings.hours)
        have hex : extractPaymentFromInterest i =
            .ok (some (buildExtractedPayment i (allFieldsOf i) dd
              (getFieldValue (findField (allFieldsOf i) FieldMappings.amount)) r1 r2)) := by
          unfold extractPaymentFromInterest
          simp [hemp', hdon, hr1, hr2]
        have hth := extractFromDonorsArray_isOk (allFieldsOf i)
        rw [hdon] at hth
        rw [hex]
        exact ⟨fun _ _ => ⟨_, rfl⟩, hth, fun hc => absurd hc hne⟩
  refine ⟨fun i => ((main i).2).1, fun i => ⟨?_, fun hc => ((main i).2).2 hc⟩⟩
  intro hok
  by_cases hemp : allFieldsOf i = []
  · exact hemp
  · obtain ⟨p, hp⟩ := (main i).1 hemp (by rw [hok]; rfl)
    rw [hok] at hp
    exact absurd (Except.ok.inj hp) (by simp)

/-- Witness for C3: an interest with an empty field pool yields `none`. -/
theorem extractor_failure_semantics_witness :
    extractPaymentFromInterest (.mk 0 "" ⟨0, ""⟩ 0 [] []) = .ok none :=
  (extractor_failure_semantics.2 (.mk 0 "" ⟨0, ""⟩ 0 [] [])).mpr rfl

/-! ## C6: payer-row classification during payment processing -/

/-- An extracted payment carrying an API-provided payer status. -/
def apiStatusPayment : ExtractedPayment :=
  { interestId := 0, memberId := 0, categoryId := 0, amount := none, amountRaw := none,
    paymentType := none, regularity := none, roleDescription := none, hoursWorked := none,
    hoursPeriod := none, hourlyRate := none, payerName := some (.str "Acme Ltd"),
    payerAddress := none, payerNatureOfBusiness := none,
    payerStatus := some (.str "Individual"),
    startDate := none, endDate := none, receivedDate := none, isDonated := false }

/-- The same payment without an API payer status. -/
def classifiedPayment : ExtractedPayment :=
  { apiStatusPayment with payerStatus := none }

/-- Counterexample to C6 as stated: a payment whose API `payerStatus` is
`"Individual"` creates a Payer row typed Individual even though the
classifier types `"Acme Ltd"` as Company — the status branch preempts
`classify`. -/
theorem payer_rows_classified_cex :
    paymentsPayerMap [] [apiStatusPayment] =
      .ok [("acme ltd",
        { name := "Acme Ltd", normalized_name := "acme ltd", payer_type := .Individual,
          payer_subtype := none, address := none, nature_of_business := none,
          country := none, is_manual_override := false, override_reason := none })] ∧
    (classify [] "Acme Ltd").type = .Company ∧
    (PayerType.Individual ≠ PayerType.Company) := by
  refine ⟨by decide, by decide, by decide⟩

/-- The same payment with a truthy status matching no known keyword. -/
def unknownStatusPayment : ExtractedPayment :=
  { apiStatusPayment with payerStatus := some (.str "Trade Association") }

/-- The Payer row `processPayments` builds for a payer name not yet seen
in the run. -/
def newPayerRow (p : ExtractedPayment) (s : String) (t : PayerType) (sub : Option String) :
    PayerRow :=
  { name := s
    normalized_name := normalizeName s
    payer_type := t
    payer_subtype := sub
    address := p.payerAddress
    nature_of_business := p.payerNatureOfBusiness
    country := none
    is_manual_override := false
    override_reason := none }

/-- The keyword mapping of a lower-cased API payer status, read off the
status branch of `processPayments`: individual/company keyword statuses
and government/public-containing statuses map to a type directly;
anything else falls back to the classifier. -/
def statusKeywordType (statusLower : String) : Option PayerType :=
  if statusLower = "individual" || statusLower = "private individual" then some .Individual
  else if statusLower = "company" || statusLower = "corporate" then some .Company
  else if jsIncludes statusLower.data "government".data
      || jsIncludes statusLower.data "public".data then some .Government
  else none

/-- A falsy (absent, empty-string, zero or `false`) payer status always
falls back to the classifier. -/
theorem resolvePayerType_not_truthy (ov : Overrides) (name : String) (st : Option JsVal)
    (h : jsTruthy st = false) :
    resolvePayerType ov name st =
      .ok ((classify ov name).type, subtypeOrNull (classify ov name).subtype) := by
  unfold resolvePayerType
  simp only [h, Bool.false_eq_true, if_false]

/-- A truthy string payer status resolves through the keyword table, with
the classifier as fallback for unknown statuses. -/
theorem resolvePayerType_str (ov : Overrides) (name st : String) (hne : st ≠ "") :
    resolvePayerType ov name (some (.str st)) =
      .ok (match statusKeywordType (String.mk (jsLower st.data)) with
        | some t => (t, none)
        | none => ((classify ov name).type, subtypeOrNull (classify ov name).subtype)) := by
  have htr : jsTruthy (some (JsVal.str st)) = true := by
    simp [jsTruthy, JsVal.truthy, hne]
  simp only [resolvePayerType, statusKeywordType, htr, if_true, Option.getD_some, jsAsString]
  split_ifs <;> rfl

/-- The payer-resolution block for a payment naming a payer not yet in the
map, for any resolved type/subtype. -/
theorem processPayerStep_new (ov : Overrides) (m : PayerMap) (p : ExtractedPayment)
    (s : String) (t : PayerType) (sub : Option String)
    (hname : p.payerName = some (.str s)) (hs : s ≠ "")
    (hnew : mapHas m (normalizeName s) = false)
    (hres : resolvePayerType ov s p.payerStatus = .ok (t, sub)) :
    processPayerStep ov m p = .ok (m ++ [(normalizeName s, newPayerRow p s t sub)]) := by
  have htr : jsTruthy p.payerName = true := by
    rw [hname]
    simp [jsTruthy, JsVal.truthy, hs]
  simp only [processPayerStep, htr, if_true, hname, Option.getD_some, jsAsString, hnew,
    Bool.false_eq_true, if_false, hres, newPayerRow]
  simp [jsTruthy, JsVal.truthy, hs]

/-- C6 (amended): when an extracted payment's normalized payer name has not
been seen yet in the run, the new Payer row's type and subtype are exactly
the classifier's result for the raw payer name (an empty-string subtype
collapsing to `null`) whenever the payment carries no truthy payer status,
or a truthy string status matching none of the known keywords; a string
status equal to individual/private individual or company/corporate, or
containing government/public, is mapped directly to the corresponding type
with a `null` subtype, preempting the classifier. -/
theorem payer_rows_classified :
    (∀ (overrides : Overrides) (m : PayerMap) (p : ExtractedPayment) (s : String),
      p.payerName = some (.str s) → s ≠ "" → mapHas m (normalizeName s) = false →
      jsTruthy p.payerStatus = false →
      processPayerStep overrides m p = .ok (m ++ [(normalizeName s,
        newPayerRow p s (classify overrides s).type
          (subtypeOrNull (classify overrides s).subtype))])) ∧
    (∀ (overrides : Overrides) (m : PayerMap) (p : ExtractedPayment) (s st : String),
      p.payerName = some (.str s) → s ≠ "" → mapHas m (normalizeName s) = false →
      p.payerStatus = some (.str st) → st ≠ "" →
      statusKeywordType (String.mk (jsLower st.data)) = none →
      processPayerStep overrides m p = .ok (m ++ [(normalizeName s,
        newPayerRow p s (classify overrides s).type
          (subtypeOrNull (classify overrides s).subtype))])) ∧
    (∀ (overrides : Overrides) (m : PayerMap) (p : ExtractedPayment) (s st : String)
        (t : PayerType),
      p.payerName = some (.str s) → s ≠ "" → mapHas m (normalizeName s) = false →
      p.payerStatus = some (.str st) → st ≠ "" →
      statusKeywordType (String.mk (jsLower st.data)) = some t →
      processPayerStep overrides m p = .ok (m ++ [(normalizeName s,
        newPayerRow p s t none)])) := by
  refine ⟨?_, ?_, ?_⟩
  · intro ov m p s hname hs hnew hstF
    exact processPayerStep_new ov m p s _ _ hname hs hnew
      (resolvePayerType_not_truthy ov s p.payerStatus hstF)
  · intro ov m p s st hname hs hnew hstat hstne hkw
    refine processPayerStep_new ov m p s _ _ hname hs hnew ?_
    rw [hstat, resolvePayerType_str ov s st hstne, hkw]
  · intro ov m p s st t hname hs hnew hstat hstne hkw
    refine processPayerStep_new ov m p s _ _ hname hs hnew ?_
    rw [hstat, resolvePayerType_str ov s st hstne, hkw]

/-- Witness for C6, exercising all three branches: no status, an unknown
status (`"Trade Association"`), and a keyword status (`"Individual"`), each
at the payer name `"Acme Ltd"`. -/
theorem payer_rows_classified_witness :
    processPayerStep [] [] classifiedPayment = .ok ([] ++ [(normalizeName "Acme Ltd",
      newPayerRow classifiedPayment "Acme Ltd" (classify [] "Acme Ltd").type
        (subtypeOrNull (classify [] "Acme Ltd").subtype))]) ∧
    processPayerStep [] [] unknownStatusPayment = .ok ([] ++ [(normalizeName "Acme Ltd",
      newPayerRow unknownStatusPayment "Acme Ltd" (classify [] "Acme Ltd").type
        (subtypeOrNull (classify [] "Acme Ltd").subtype))]) ∧
    processPayerStep [] [] apiStatusPayment = .ok ([] ++ [(normalizeName "Acme Ltd",
      newPayerRow apiStatusPayment "Acme Ltd" .Individual none)]) :=
  ⟨payer_rows_classified.1 [] [] classifiedPayment "Acme Ltd" rfl (by decide) (by decide) rfl,
   payer_rows_classified.2.1 [] [] unknownStatusPayment "Acme Ltd" "Trade Association" rfl
     (by decide) (by decide) rfl (by decide) (by decide),
   payer_rows_classified.2.2 [] [] apiStatusPayment "Acme Ltd" "Individual" .Individual rfl
     (by decide) (by decide) rfl (by decide) (by decide)⟩

end MPInterests
